import Mathlib

/-!
Shallow embedding of the NachOS kernel core (threads, scheduler, locks,
file headers, syscall dispatcher) and proofs about the claims of the
specification.  Each C++ routine of the repository is translated into an
executable Lean definition; theorems at the end settle the claims.
-/

namespace NachOS

/-- Embeds `SchedulerType` from scheduler.h. -/
inductive SchedulerType where
  | RR        -- Round-Robin
  | FCFS      -- First-Come-First-Serve
  | Priority
  | SJF       -- Shortest Job First
deriving DecidableEq, Repr

/-- Thread lifecycle status from thread.h. -/
inductive ThreadStatus where
  | JUST_CREATED
  | READY
  | RUNNING
  | BLOCKED
deriving DecidableEq, Repr

/-- The fields of class `Thread` that the scheduler and the
synchronization layer read and write (thread.cc). -/
structure Thread where
  priority : Int
  donatedPriority : Int
  isDonated : Bool
  status : ThreadStatus
  burstTime : Int
  startTicks : Int
  desiredLock : Option Nat   -- identifier of the lock being waited on
  desiredJoin : Option Nat   -- identifier of the thread being joined on
deriving DecidableEq, Repr

/-- Embeds `Thread::setPriority` (thread.cc): clamp the argument into 0..7 and
store it; returns the old value in C++ (the state effect is what matters). -/
def setPriority (t : Thread) (newPriority : Int) : Thread :=
  let p := if newPriority < 0 then 0 else if newPriority > 7 then 7 else newPriority
  { t with priority := p }

/-- Embeds `Thread::getEffectivePriority` (thread.cc): the donated priority when
`isDonated`, the base priority otherwise. -/
def getEffectivePriority (t : Thread) : Int :=
  if t.isDonated = false then t.priority else t.donatedPriority

/-- The `Thread::Thread` constructor's priority initialization
(thread.cc): `(void) setPriority(priority)` on a thread whose donation
cell starts cleared, status `JUST_CREATED`, `burstTime = 10`,
`startTicks = 0`, no desired lock and no desired join. -/
def mkThread (priority : Int) : Thread :=
  setPriority
    { priority := 0, donatedPriority := 0, isDonated := false,
      status := ThreadStatus.JUST_CREATED, burstTime := 10, startTicks := 0,
      desiredLock := none, desiredJoin := none } priority

/-- Scheduler state: the fields of class `Scheduler` (scheduler.h) that
the claims are about.  The ready list holds thread identifiers. -/
structure SchedState where
  schedulerType : SchedulerType
  isPreemptive : Bool
  readyList : List Nat
deriving DecidableEq, Repr

/-- Embeds `Scheduler::Scheduler` (scheduler.cc).  The body asserts
(`ASSERTNOTREACHED`, modelled as `none`) when asked for a preemptive
FCFS; otherwise it stores the parameters and then unconditionally
executes `isPreemptive = FALSE;` as its last statement. -/
def mkScheduler (initSchedulerType : SchedulerType) (isPreemptive : Bool) :
    Option SchedState :=
  -- schedulerType = initSchedulerType; this->isPreemptive = isPreemptive;
  let s : SchedState :=
    { schedulerType := initSchedulerType, isPreemptive := isPreemptive,
      readyList := [] }
  if isPreemptive = true ∧ initSchedulerType = SchedulerType.FCFS then
    none                                  -- ASSERTNOTREACHED()
  else
    some { s with isPreemptive := false } -- final `isPreemptive = FALSE;`

/-- Modelled from the spec: `MaxNumUserOpenFiles` is declared in
thread.h, which is not among the provided sources; the spec's
open-overflow scenario (five files open, the sixth `Open` fails) fixes
the capacity at 5. -/
def MaxNumUserOpenFiles : Nat := 5

/-- One record of data stored in an open file in our model of
`OpenFile` (openfile.cc is not among the provided sources; modelled from
the spec: an OpenFile holds a byte sequence and a seek position). -/
structure FileRec where
  content : List Int
  pos : Nat
deriving DecidableEq, Repr

/-- Embeds `UserOpenFileEntry` (thread.h): an in-use flag and the open file. -/
structure UserOpenFileEntry where
  inUse : Bool
  openFile : Option FileRec
deriving DecidableEq, Repr

/-- A per-thread user open-file table: `openFileTable[MaxNumUserOpenFiles]`,
every entry initialized not in use by the Thread constructor. -/
abbrev FileTable := List UserOpenFileEntry

/-- The open-file table as built by `Thread::Thread`. -/
def initFileTable : FileTable :=
  List.replicate MaxNumUserOpenFiles { inUse := false, openFile := none }

/-- Embeds `Thread::AddOpenFileEntry` (thread.cc): scan indices from 0 upward,
store the file at the first entry with `inUse == FALSE` and return that
index; return `-1` when every entry is in use. -/
def addOpenFileEntry (table : FileTable) (newOpenFile : FileRec) :
    Int × FileTable :=
  go table 0
where
  go : List UserOpenFileEntry → Nat → Int × List UserOpenFileEntry
    | [], _ => (-1, [])
    | e :: rest, i =>
      if e.inUse = false then
        ((i : Int), { inUse := true, openFile := some newOpenFile } :: rest)
      else
        let (r, rest') := go rest (i + 1)
        (r, e :: rest')

/-- Embeds `Thread::RemoveOpenFileEntry` (thread.cc): `FALSE` when `fd` is out
of range or the entry is not in use; otherwise clear the entry and
return `TRUE`. -/
def removeOpenFileEntry (table : FileTable) (fd : Int) : Bool × FileTable :=
  if fd < 0 ∨ fd ≥ (MaxNumUserOpenFiles : Int) then
    (false, table)
  else
    match table.get? fd.toNat with
    | none => (false, table)
    | some e =>
      if e.inUse = false then
        (false, table)
      else
        (true, table.set fd.toNat { inUse := false, openFile := none })

/-- Embeds `Thread::GetOpenFileEntry` (thread.cc): the open file for `fd`, or
none when `fd` is out of range, the entry is unused, or holds no file. -/
def getOpenFileEntry (table : FileTable) (fd : Int) : Option FileRec :=
  if fd < 0 ∨ fd ≥ (MaxNumUserOpenFiles : Int) then
    none
  else
    match table.get? fd.toNat with
    | none => none
    | some e =>
      if e.inUse = false then none
      else e.openFile

/-! ### Scheduler comparators, ready list, donation (scheduler.cc, thread.cc) -/

/-- Embeds `PriorityComparator` (scheduler.cc): order by base priority, higher first. -/
def priorityComparator (a b : Thread) : Int :=
  if a.priority > b.priority then -1
  else if a.priority < b.priority then 1
  else 0

/-- Embeds `EffectivePriorityComparator` (scheduler.cc): order by effective
priority, higher first. -/
def effectivePriorityComparator (a b : Thread) : Int :=
  if getEffectivePriority a > getEffectivePriority b then -1
  else if getEffectivePriority a < getEffectivePriority b then 1
  else 0

/-- Embeds `CPUBurstTimeComparator` (scheduler.cc): order by predicted burst
time, smaller first. -/
def cpuBurstTimeComparator (a b : Thread) : Int :=
  if a.burstTime < b.burstTime then -1
  else if a.burstTime > b.burstTime then 1
  else 0

/-- Embeds `ThreadComparator` (scheduler.cc): dispatch on the scheduler type;
for `Priority` the effective comparator is used only when the scheduler
is preemptive. -/
def threadComparator (st : SchedulerType) (preemptive : Bool)
    (a b : Thread) : Int :=
  match st with
  | SchedulerType.Priority =>
      if preemptive = true then effectivePriorityComparator a b
      else priorityComparator a b
  | SchedulerType.RR => 0
  | SchedulerType.FCFS => 0
  | SchedulerType.SJF => cpuBurstTimeComparator a b

/-- Lock state: the fields of class `Lock` (synch.h) the claims need.
Threads are identified by `Nat` identifiers. -/
structure LockState where
  locked : Bool
  lockHolder : Option Nat
  waitQueue : List Nat
deriving DecidableEq, Repr

/-- The kernel state seen by the scheduler and the synchronization
layer: a map from thread identifiers to threads, a map from lock
identifiers to locks, and the scheduler. -/
structure KState where
  threads : Nat → Thread
  locks : Nat → LockState
  sched : SchedState

/-- Point update of the thread map. -/
def KState.setThread (st : KState) (i : Nat) (t : Thread) : KState :=
  { st with threads := fun j => if j = i then t else st.threads j }

/-- Point update of the lock map. -/
def KState.setLock (st : KState) (l : Nat) (lk : LockState) : KState :=
  { st with locks := fun j => if j = l then lk else st.locks j }

/-- Embeds `Scheduler::CompareThread` over the current state. -/
def compareThread (st : KState) (a b : Nat) : Int :=
  threadComparator st.sched.schedulerType st.sched.isPreemptive
    (st.threads a) (st.threads b)

/-- Modelled from the spec: `SortedList<T>::Insert` (list.cc is not
among the provided sources).  The element is inserted before the first
element that compares greater, so equal keys keep arrival order
("Ties: arrival order"). -/
def sortedInsert (cmp : Nat → Nat → Int) (x : Nat) : List Nat → List Nat
  | [] => [x]
  | y :: ys => if cmp x y < 0 then x :: y :: ys else y :: sortedInsert cmp x ys

/-- Embeds `Scheduler::ReadyToRun` (scheduler.cc): set the thread's status to
`READY` and insert it into the sorted ready list. -/
def readyToRun (st : KState) (i : Nat) : KState :=
  let st1 := st.setThread i { st.threads i with status := ThreadStatus.READY }
  { st1 with sched := { st1.sched with
      readyList := sortedInsert (compareThread st1) i st1.sched.readyList } }

/-- Embeds `Scheduler::UpdateReadyList` (scheduler.cc): when the thread is on
the ready list, remove it and re-insert it in sorted position. -/
def updateReadyList (st : KState) (i : Nat) : KState :=
  if i ∈ st.sched.readyList then
    { st with sched := { st.sched with
        readyList :=
          sortedInsert (compareThread st) i (st.sched.readyList.erase i) } }
  else st

/-- Embeds `Thread::resetEffectivePriority` (thread.cc): clear `isDonated` and
re-sort the ready list when it was set; return the old flag. -/
def resetEffectivePriority (st : KState) (i : Nat) : Bool × KState :=
  let oldValue := (st.threads i).isDonated
  if oldValue = true then
    let st1 := st.setThread i { st.threads i with isDonated := false }
    (oldValue, updateReadyList st1 i)
  else
    (oldValue, st)

/-- The body of `Thread::setEffectivePriority` (thread.cc): store the
donated priority, set `isDonated`, re-sort the ready list, then notify
the desired lock's holder and the desired join target (the transitive
propagation), using `donate` for the notifications.  The C++ recursion
through `DonatePriority` is not structurally bounded, so
`setEffectivePriority` below ties the knot with explicit fuel; the
propagation to a lock is taken only when the lock currently has a
holder (in the code a waiter's `desiredLock` always has one). -/
def setEffWith (donate : KState → Nat → Nat → KState) (st : KState) (i : Nat)
    (newDonatedPriority : Int) : KState :=
  let st1 := st.setThread i
    { st.threads i with donatedPriority := newDonatedPriority, isDonated := true }
  let st2 := updateReadyList st1 i
  -- NotifyDesiredLockNewDonation
  let st3 :=
    match (st2.threads i).desiredLock with
    | none => st2
    | some l =>
      match (st2.locks l).lockHolder with
      | none => st2
      | some h => donate st2 i h
  -- NotifyDesiredJoinNewDonation
  match (st3.threads i).desiredJoin with
  | none => st3
  | some j => donate st3 i j

/-- Embeds `Scheduler::DonatePriority` (scheduler.cc): when the donor compares
ahead of the donee under the active comparator, the donee receives the
donor's effective priority (each propagation hop consumes one unit of
fuel). -/
def donatePriority : Nat → KState → Nat → Nat → KState
  | 0, st, _, _ => st
  | fuel + 1, st, doner, donee =>
    if compareThread st doner donee < 0 then
      setEffWith (donatePriority fuel) st donee
        (getEffectivePriority (st.threads doner))
    else st

/-- Embeds `Thread::setEffectivePriority` (thread.cc) with the given
propagation fuel. -/
def setEffectivePriority (fuel : Nat) (st : KState) (i : Nat)
    (newDonatedPriority : Int) : KState :=
  setEffWith (donatePriority fuel) st i newDonatedPriority

/-- Embeds `Lock::DonatePriorityToLockHolder` (synch.cc): donate the donor's
effective priority to the lock's holder. -/
def donatePriorityToLockHolder (fuel : Nat) (st : KState) (l : Nat)
    (doner : Nat) : KState :=
  match (st.locks l).lockHolder with
  | none => st
  | some h => donatePriority fuel st doner h

/-- One blocking iteration of the `while (locked == TRUE)` loop in
`Lock::Acquire` (synch.cc), executed by thread `cur` when the lock is
held: donate to the holder, append `cur` to the wait queue, and block
(`Sleep(FALSE)` marks the thread `BLOCKED`).  Note the code never calls
`Thread::setDesiredLock` here. -/
def acquireBlockedIter (fuel : Nat) (st : KState) (l : Nat) (cur : Nat) :
    KState :=
  let st1 := donatePriorityToLockHolder fuel st l cur
  let st2 := st1.setLock l
    { st1.locks l with waitQueue := (st1.locks l).waitQueue ++ [cur] }
  st2.setThread cur { st2.threads cur with status := ThreadStatus.BLOCKED }

/-- The exit path of `Lock::Acquire` once the while loop falls through:
set the lock busy and record the current thread as holder. -/
def acquireSucceed (st : KState) (l : Nat) (cur : Nat) : KState :=
  st.setLock l { st.locks l with locked := true, lockHolder := some cur }

/-- Embeds `Lock::Release` (synch.cc): reset the holder's donation flag
(`CleanDonatedPriority`), drain the whole wait queue into the ready
list, clear the holder and the busy flag; afterwards the releasing
thread calls `Yield` exactly when the scheduler is preemptive and the
holder had been donated to.  Returns the new state and that flag.  The
C++ asserts `locked == TRUE` and a holder exists; the `none` branch is
unreachable under those assertions. -/
def release (st : KState) (l : Nat) : KState × Bool :=
  match (st.locks l).lockHolder with
  | none => (st, false)
  | some h =>
    -- bool didLockHolderHaveBeenDonated = CleanDonatedPriority();
    let didLockHolderHaveBeenDonated := (resetEffectivePriority st h).1
    let st1 := (resetEffectivePriority st h).2
    -- while (!waitQueue->IsEmpty()) ReadyToRun(waitQueue->RemoveFront());
    let st2 := ((st1.locks l).waitQueue).foldl readyToRun st1
    -- lockHolder = NULL; locked = FALSE;
    let st3 := st2.setLock l
      { st2.locks l with locked := false, lockHolder := none, waitQueue := [] }
    (st3, st3.sched.isPreemptive && didLockHolderHaveBeenDonated)

/-! ### Burst prediction and dispatch (thread.cc, scheduler.cc) -/

/-- Modelled from the spec: the smoothing coefficient `alpha` is a
compile-time constant declared in thread.h, which is not among the
provided sources; the spec fixes it at 0.5. -/
def alpha : ℚ := 1/2

/-- The C `(int)` cast of a rational value: truncation toward zero. -/
def cTruncate (q : ℚ) : Int :=
  if q < 0 then ⌈q⌉ else ⌊q⌋

/-- The burst-prediction update
`(int)(alpha * actualBurstTime + (1.0 - alpha) * burstTime)`
performed by `Thread::Yield` and `Thread::Sleep` (thread.cc).  With
`alpha = 0.5` and tick values far below `2^24` the float computation is
exact, so the update is `(actual + burst) / 2` truncated toward zero;
`burstSmooth_eq_formula` below relates this to the rational formula. -/
def burstSmooth (actualBurstTime burstTime : Int) : Int :=
  (actualBurstTime + burstTime).tdiv 2

/-- Embeds `Scheduler::Run` as far as the claims need it: the next thread
becomes `RUNNING` and `setCPUBurstTicks(kernel->stats->userTicks)`
records the dispatch time (per the spec, in `startTicks`).  The
machine-level stack switch is outside the model. -/
def runThread (st : KState) (n : Nat) (userTicks : Int) : KState :=
  st.setThread n
    { st.threads n with status := ThreadStatus.RUNNING, startTicks := userTicks }

/-- Embeds `Scheduler::FindNextToRun` (scheduler.cc).  Returns the chosen
thread (if any) and the state with the ready list possibly popped;
`cur` is `kernel->currentThread`. -/
def findNextToRun (st : KState) (cur : Nat) : Option Nat × KState :=
  if st.sched.isPreemptive = false then
    match st.sched.readyList with
    | [] => (none, st)
    | t :: rest =>
        (some t, { st with sched := { st.sched with readyList := rest } })
  else
    if (st.threads cur).status = ThreadStatus.BLOCKED then
      match st.sched.readyList with
      | [] => (none, st)
      | t :: rest =>
          (some t, { st with sched := { st.sched with readyList := rest } })
    else
      match st.sched.readyList with
      | [] => (some cur, st)
      | t :: rest =>
          if compareThread st t cur ≤ 0 then
            (some t, { st with sched := { st.sched with readyList := rest } })
          else (some cur, st)

/-- Embeds `Thread::Yield` (thread.cc): pick a next thread; only when one
exists and differs from the caller, update the caller's predicted burst
time, requeue the caller and dispatch the next thread.  `userTicks` is
`kernel->stats->userTicks`. -/
def yield (st : KState) (cur : Nat) (userTicks : Int) : KState :=
  let (nextThread, st1) := findNextToRun st cur
  match nextThread with
  | none => st1
  | some n =>
    if n ≠ cur then
      let t := st1.threads cur
      let actualBurstTime := userTicks - t.startTicks
      let st2 := st1.setThread cur
        { t with burstTime := burstSmooth actualBurstTime t.burstTime }
      let st3 := readyToRun st2 cur
      runThread st3 n userTicks
    else st1

/-- Embeds `Thread::Sleep` (thread.cc): unconditionally update the predicted
burst time, mark the caller `BLOCKED`, and dispatch the next runnable
thread if one exists (the `Idle` wait loop when none exists is outside
the model, as is the `finishing` destruction bookkeeping). -/
def sleepThread (st : KState) (cur : Nat) (userTicks : Int) : KState :=
  let t := st.threads cur
  let actualBurstTime := userTicks - t.startTicks
  let st1 := st.setThread cur
    { t with burstTime := burstSmooth actualBurstTime t.burstTime,
             status := ThreadStatus.BLOCKED }
  let (nextThread, st2) := findNextToRun st1 cur
  match nextThread with
  | none => st2
  | some n => runThread st2 n userTicks

/-! ### File headers (filehdr.cc) -/

/-- Modelled from the spec: `SectorSize` is declared in disk.h, which is
not among the provided sources; the spec gives the conventional 128. -/
def SectorSize : Int := 128

/-- Modelled from the spec: `NumDirect = (SectorSize − 3·sizeof(int)) /
sizeof(int)` (filehdr.h is not among the provided sources). -/
def NumDirect : Nat := 29

/-- Modelled from the spec: `MaxFileSize = NumDirect · SectorSize`. -/
def MaxFileSize : Int := (NumDirect : Int) * SectorSize

/-- Modelled from the spec: `divRoundUp(n, s)` from the NachOS utility
header (not among the provided sources): integer division rounded up,
with C truncating division. -/
def divRoundUp (n s : Int) : Int :=
  n.tdiv s + (if n.tmod s > 0 then 1 else 0)

/-- Modelled from the spec: the free-sector `Bitmap` (bitmap.cc is not
among the provided sources).  Entry `i` is `true` when sector `i` is
allocated; `FindAndSet` claims the lowest clear bit. -/
abbrev Bitmap := List Bool

/-- Embeds `Bitmap::NumClear`: the number of clear (free) bits. -/
def numClear (bm : Bitmap) : Nat :=
  List.count false bm

/-- Embeds `Bitmap::FindAndSet`: the index of the lowest clear bit, now set;
`-1` when none is clear. -/
def findAndSet (bm : Bitmap) : Int × Bitmap :=
  go bm 0
where
  go : List Bool → Nat → Int × List Bool
    | [], _ => (-1, [])
    | b :: rest, i =>
      if b = false then ((i : Int), true :: rest)
      else
        let (r, rest') := go rest (i + 1)
        (r, b :: rest')

/-- The in-memory `FileHeader` (filehdr.h): byte count, sector count,
direct sector table, the disk sector of the next chained header (`-1`
when absent) and the next header itself. -/
inductive FileHeader where
  | mk (numBytes numSectors : Int) (dataSectors : List Int)
       (nextFileHeaderSector : Int) (nextFileHeader : Option FileHeader)
deriving Repr

/-- Field accessor: `numBytes`. -/
def FileHeader.numBytes : FileHeader → Int
  | .mk nb _ _ _ _ => nb

/-- Field accessor: `numSectors`. -/
def FileHeader.numSectors : FileHeader → Int
  | .mk _ ns _ _ _ => ns

/-- Field accessor: `dataSectors`. -/
def FileHeader.dataSectors : FileHeader → List Int
  | .mk _ _ ds _ _ => ds

/-- Field accessor: `nextFileHeaderSector`. -/
def FileHeader.nextFileHeaderSector : FileHeader → Int
  | .mk _ _ _ nxt _ => nxt

/-- Field accessor: `nextFileHeader`. -/
def FileHeader.nextFileHeader : FileHeader → Option FileHeader
  | .mk _ _ _ _ onh => onh

/-- Number of headers along the chain. -/
def FileHeader.chainLength : FileHeader → Nat
  | .mk _ _ _ _ none => 1
  | .mk _ _ _ _ (some nh) => nh.chainLength + 1

/-- Embeds `FileHeader::FileLength` (filehdr.cc): `numBytes` plus the length of
the rest of the chain. -/
def FileHeader.fileLength : FileHeader → Int
  | .mk nb _ _ _ none => nb
  | .mk nb _ _ _ (some nh) => nb + nh.fileLength

/-- Allocation of `numSectors` data sectors, the `for` loop in
`FileHeader::Allocate`: repeated `FindAndSet`, failing on `-1`. -/
def allocSectors : Nat → Bitmap → Option (List Int × Bitmap)
  | 0, bm => some ([], bm)
  | n + 1, bm =>
    let (s, bm') := findAndSet bm
    if s = -1 then none
    else
      match allocSectors n bm' with
      | none => none
      | some (rest, bm2) => some (s :: rest, bm2)

/-- A file size larger than `NumDirect` sectors exceeds `MaxFileSize`;
used to show `FileHeader::Allocate`'s chain recursion terminates. -/
theorem lt_of_divRoundUp_gt (n : Int)
    (h : (NumDirect : Int) < divRoundUp n SectorSize) : MaxFileSize < n := by
  have hgoal : (3712 : Int) < n := by
    by_contra hle
    push_neg at hle
    unfold divRoundUp SectorSize NumDirect at h
    rcases lt_or_le n 0 with hneg | hpos
    · have h1 : (0:Int) ≤ -n := by omega
      have h2 : (0:Int) ≤ (-n).tdiv 128 := Int.tdiv_nonneg h1 (by norm_num)
      have h3 : n.tdiv 128 = -((-n).tdiv 128) := by
        conv_lhs => rw [show n = -(-n) by ring]
        rw [Int.neg_tdiv]
      have h4 : (0:Int) ≤ (-n).tmod 128 := Int.tmod_nonneg _ h1
      have h5 : n.tmod 128 = n - 128 * n.tdiv 128 := Int.tmod_def n 128
      have h6 : (-n).tmod 128 = -n - 128 * ((-n).tdiv 128) := Int.tmod_def (-n) 128
      rw [h3] at h
      rw [h3] at h5
      norm_num at h
      split at h <;> omega
    · rw [Int.tdiv_eq_ediv hpos (by norm_num),
          Int.tmod_eq_emod hpos (by norm_num)] at h
      norm_num at h
      split at h <;> omega
  unfold MaxFileSize SectorSize NumDirect
  omega

/-- Embeds `FileHeader::Allocate` (filehdr.cc): set `numBytes` to the full
`fileSize` (the code does not clamp it to this header's span), clamp
`numSectors` to `NumDirect`, check free space, claim the data sectors,
and when more than `NumDirect` sectors are needed claim a sector for a
chained header and recurse on `fileSize - MaxFileSize`.  `none` models
the `FALSE` return.  The C++ recursion terminates because every chain
link strips `MaxFileSize` bytes (see `lt_of_divRoundUp_gt`); here the
chain depth is bounded by explicit fuel, so any fuel above
`divRoundUp fileSize MaxFileSize` gives the C++ behaviour. -/
def allocate : Nat → Bitmap → Int → Option (FileHeader × Bitmap)
  | 0, _, _ => none
  | fuel + 1, freeMap, fileSize =>
    let numTotalSectors := divRoundUp fileSize SectorSize
    let numBytes := fileSize
    let numSectors := min numTotalSectors (NumDirect : Int)
    if (numClear freeMap : Int) < numSectors then none
    else
      match allocSectors numSectors.toNat freeMap with
      | none => none
      | some (dataSectors, bm1) =>
        if numTotalSectors > (NumDirect : Int) then
          let (nextSec, bm2) := findAndSet bm1
          if nextSec = -1 then none
          else
            match allocate fuel bm2 (fileSize - MaxFileSize) with
            | none => none
            | some (nextHdr, bm3) =>
              some (FileHeader.mk numBytes numSectors dataSectors nextSec
                      (some nextHdr), bm3)
        else
          some (FileHeader.mk numBytes numSectors dataSectors (-1) none, bm1)

/-! ### File-header persistence (filehdr.cc `WriteBack` / `FetchFrom`) -/

/-- Words (4-byte ints) per sector. -/
def SectorWords : Nat := 32

/-- The simulated disk, one word list per sector number. -/
abbrev Disk := Int → List Int

/-- Point update of the disk. -/
def diskWrite (d : Disk) (sector : Int) (ws : List Int) : Disk :=
  fun s => if s = sector then ws else d s

/-- The sector image `FileHeader::WriteBack` builds: a zeroed buffer
receiving, in order, `numBytes`, `numSectors`, `nextFileHeaderSector`
and the first `numSectors` entries of `dataSectors`. -/
def encodeHeader (numBytes numSectors : Int) (dataSectors : List Int)
    (nextFileHeaderSector : Int) : List Int :=
  [numBytes, numSectors, nextFileHeaderSector]
    ++ dataSectors.take numSectors.toNat
    ++ List.replicate (SectorWords - 3 - numSectors.toNat) 0

/-- Embeds `FileHeader::WriteBack` (filehdr.cc): write this header's sector
image, then recurse on the chained header whenever
`nextFileHeaderSector != -1` (the code follows the sector field; a
well-formed header has the in-memory pointer exactly then). -/
def writeBack : FileHeader → Int → Disk → Disk
  | .mk nb ns ds nxt onh, sector, disk =>
    let disk1 := diskWrite disk sector (encodeHeader nb ns ds nxt)
    if nxt ≠ -1 then
      match onh with
      | some nh => writeBack nh nxt disk1
      | none => disk1      -- C++ would dereference NULL; excluded by wf
    else disk1

/-- Embeds `FileHeader::FetchFrom` (filehdr.cc): read one sector into the
fields of a freshly constructed header (whose `dataSectors` start
zeroed), then recurse while `nextFileHeaderSector != -1`.  The recursion
is not structurally bounded on disk data, so it carries fuel; `none`
models non-termination or exhausted fuel. -/
def fetchFrom : Nat → Disk → Int → Option FileHeader
  | 0, _, _ => none
  | fuel + 1, disk, sector =>
    let buf := disk sector
    let numBytes := buf.getD 0 0
    let numSectors := buf.getD 1 0
    let nextFileHeaderSector := buf.getD 2 0
    let dataSectors := (buf.drop 3).take numSectors.toNat
        ++ List.replicate (NumDirect - numSectors.toNat) 0
    if nextFileHeaderSector ≠ -1 then
      match fetchFrom fuel disk nextFileHeaderSector with
      | some nh =>
        some (FileHeader.mk numBytes numSectors dataSectors
                nextFileHeaderSector (some nh))
      | none => none
    else
      some (FileHeader.mk numBytes numSectors dataSectors
              nextFileHeaderSector none)

/-- What a round trip through disk reconstructs: the same header with
`dataSectors` normalized to the stored prefix padded with the zeros a
fresh header starts with. -/
def canonHeader : FileHeader → FileHeader
  | .mk nb ns ds nxt none =>
    .mk nb ns (ds.take ns.toNat ++ List.replicate (NumDirect - ns.toNat) 0)
      nxt none
  | .mk nb ns ds nxt (some nh) =>
    .mk nb ns (ds.take ns.toNat ++ List.replicate (NumDirect - ns.toNat) 0)
      nxt (some (canonHeader nh))

/-- Structural well-formedness of an in-memory header chain, as
established by `Allocate`: sector counts within `0..NumDirect`, a full
`dataSectors` array, and the next-sector field consistent with the
next-header pointer. -/
def wfHeader : FileHeader → Bool
  | .mk _ ns ds nxt none =>
    decide (0 ≤ ns) && decide (ns ≤ (NumDirect : Int))
      && decide (ds.length = NumDirect) && decide (nxt = -1)
  | .mk _ ns ds nxt (some nh) =>
    decide (0 ≤ ns) && decide (ns ≤ (NumDirect : Int))
      && decide (ds.length = NumDirect) && decide (nxt ≠ -1) && wfHeader nh

/-- The sectors a `WriteBack` starting at `sector` writes, in order. -/
def chainSectors : FileHeader → Int → List Int
  | .mk _ _ _ nxt onh, sector =>
    sector ::
      (match onh with
        | some nh => if nxt ≠ -1 then chainSectors nh nxt else []
        | none => [])

/-! ### Syscall dispatcher: `SC_Read` and `SC_Write` (exception.cc) -/

/-- User memory: the byte stored at each virtual address. -/
abbrev UserMem := Int → Int

/-- Embeds `ReadStringFromUserAddrSpace` (exception.cc).  `none` models
the fatal `ASSERT(addr >= 0)` on a negative address (the simulator
halts instead of returning).  Otherwise the result is the pair of the
return value — `-1` when `addr == 0` or `limit ≤ 0`, else the number of
bytes copied (0 for a leading NUL) — and the bytes the loop (condition
`addr > 0 && limit > 0`, stopping at the first NUL or at `limit`)
copied into the buffer. -/
def readStringFromUserAddrSpace (mem : UserMem) (addr limit : Int) :
    Option (Int × List Int) :=
  if addr < 0 then none            -- ASSERT(addr >= 0)
  else
    let bytes :=
      if addr = 0 ∨ limit ≤ 0 then []
      else ((List.range limit.toNat).map (fun i => mem (addr + i))).takeWhile
        (fun ch => ch ≠ 0)
    if addr = 0 ∨ limit ≤ 0 then some (-1, bytes)
    else some ((bytes.length : Int), bytes)

/-- Embeds `WriteCharsToUserAddrSpace` (exception.cc), as invoked with
`limit = buf.length`.  `none` models the fatal `ASSERT(addr >= 0)` on a
negative address; `-1` is returned when the limit is `≤ 0`; otherwise
every byte is stored (the machine's `WriteMem` is outside the model and
taken to succeed) and the count is returned. -/
def writeCharsToUserAddrSpace (addr : Int) (buf : List Int) : Option Int :=
  if addr < 0 then none            -- ASSERT(addr >= 0)
  else if (buf.length : Int) ≤ 0 then some (-1)
  else some (buf.length : Int)

/-- Modelled from the spec: `OpenFile::Read` (openfile.cc is not among
the provided sources) reads up to `n` bytes from the seek position,
advancing it, and returns the bytes obtained. -/
def openFileRead (f : FileRec) (n : Nat) : List Int × FileRec :=
  let bytes := (f.content.drop f.pos).take n
  (bytes, { f with pos := f.pos + bytes.length })

/-- Modelled from the spec: `OpenFile::Write` writes the buffer at the
seek position, advancing it, and returns the number of bytes written. -/
def openFileWrite (f : FileRec) (buf : List Int) : Int × FileRec :=
  let content := f.content.take f.pos
      ++ buf ++ f.content.drop (f.pos + buf.length)
  ((buf.length : Int), { content := content, pos := f.pos + buf.length })

/-- Store the (mutated-in-place in C++) open file back at `fd`. -/
def setOpenFile (table : FileTable) (fd : Int) (f : FileRec) : FileTable :=
  table.set fd.toNat { inUse := true, openFile := some f }

/-- The `SC_Read` arm of `ExceptionHandler` (exception.cc): `-1` when
the fd has no open file or `n ≤ 0`; otherwise read through the
`OpenFile`; `-1` again when that read yields no bytes; otherwise the
count `WriteCharsToUserAddrSpace` copied to the user buffer at `addr`
(`none` models that copy's fatal assertion on a negative address).
Returns the result register and the updated table. -/
def syscallRead (table : FileTable) (addr n fd : Int) :
    Option (Int × FileTable) :=
  match getOpenFileEntry table fd with
  | none => some (-1, table)
  | some f =>
    if n ≤ 0 then some (-1, table)
    else
      let (bytes, f') := openFileRead f n.toNat
      let table' := setOpenFile table fd f'
      if (bytes.length : Int) ≤ 0 then some (-1, table')
      else
        match writeCharsToUserAddrSpace addr bytes with
        | none => none
        | some numBytesRW => some (numBytesRW, table')

/-- The `SC_Write` arm of `ExceptionHandler` (exception.cc): `-1` when
the fd has no open file or `n < 0`; otherwise copy the user bytes with
`ReadStringFromUserAddrSpace` (`none` models its fatal assertion on a
negative address); `-1` again when that copy yields no bytes
(`bufSize <= 0`); otherwise the `OpenFile::Write` return value. -/
def syscallWrite (mem : UserMem) (table : FileTable) (addr n fd : Int) :
    Option (Int × FileTable) :=
  match getOpenFileEntry table fd with
  | none => some (-1, table)
  | some f =>
    if n < 0 then some (-1, table)
    else
      match readStringFromUserAddrSpace mem addr n with
      | none => none
      | some (bufSize, buf) =>
        if bufSize ≤ 0 then some (-1, table)
        else
          let (r, f') := openFileWrite f buf
          some (r, setOpenFile table fd f')

/-! ### Concrete states used to instantiate the theorems -/

/-- All locks free. -/
def freeLocks : Nat → LockState :=
  fun _ => { locked := false, lockHolder := none, waitQueue := [] }

/-- A plain thread with the given base priority, donation cell, status
and burst data. -/
def demoThread (priority donatedPriority : Int) (isDonated : Bool)
    (status : ThreadStatus) (burstTime startTicks : Int) : Thread :=
  { priority := priority, donatedPriority := donatedPriority,
    isDonated := isDonated, status := status, burstTime := burstTime,
    startTicks := startTicks, desiredLock := none, desiredJoin := none }

/-- State for the `Lock::Release` witness: thread 0 (priority 1, donated
6) runs and holds lock 0; threads 1 and 2 are blocked in its waiter
queue; non-preemptive priority scheduling. -/
def releaseDemoState : KState :=
  { threads := fun n =>
      if n = 0 then demoThread 1 6 true ThreadStatus.RUNNING 10 0
      else demoThread 2 0 false ThreadStatus.BLOCKED 10 0,
    locks := fun _ =>
      { locked := true, lockHolder := some 0, waitQueue := [1, 2] },
    sched := { schedulerType := SchedulerType.Priority, isPreemptive := false,
               readyList := [] } }

/-- State for the SJF donation counterexample: thread 0 (priority 0,
burst 5) donates to thread 1 (priority 7, burst 10) under an SJF
scheduler. -/
def sjfDemoState : KState :=
  { threads := fun n =>
      if n = 0 then demoThread 0 0 false ThreadStatus.RUNNING 5 0
      else demoThread 7 0 false ThreadStatus.READY 10 0,
    locks := freeLocks,
    sched := { schedulerType := SchedulerType.SJF, isPreemptive := false,
               readyList := [] } }

/-- State for the non-SJF donation witness: thread 0 (priority 6) and
thread 1 (priority 2) under a preemptive priority scheduler. -/
def priDemoState : KState :=
  { threads := fun n =>
      if n = 0 then demoThread 6 0 false ThreadStatus.RUNNING 10 0
      else demoThread 2 0 false ThreadStatus.READY 10 0,
    locks := freeLocks,
    sched := { schedulerType := SchedulerType.Priority, isPreemptive := true,
               readyList := [] } }

/-- State for the `Lock::Acquire` failing input: thread 0 holds lock 0,
thread 1 (running, priority 7) is about to block on it; every thread
starts with `desiredLock = none` as in the constructor. -/
def acquireDemoState : KState :=
  { threads := fun n =>
      if n = 0 then demoThread 1 0 false ThreadStatus.READY 10 0
      else demoThread 7 0 false ThreadStatus.RUNNING 10 0,
    locks := fun _ =>
      { locked := true, lockHolder := some 0, waitQueue := [] },
    sched := { schedulerType := SchedulerType.Priority, isPreemptive := true,
               readyList := [0] } }

/-- State for the burst-prediction claims: thread 0 alone, predicted
burst 10, dispatched at tick 0; empty ready list. -/
def burstDemoState : KState :=
  { threads := fun _ => demoThread 3 0 false ThreadStatus.RUNNING 10 0,
    locks := freeLocks,
    sched := { schedulerType := SchedulerType.SJF, isPreemptive := false,
               readyList := [] } }

/-- Burst demo with another ready thread, so `Yield` actually switches. -/
def burstDemoState2 : KState :=
  { threads := fun _ => demoThread 3 0 false ThreadStatus.RUNNING 10 0,
    locks := freeLocks,
    sched := { schedulerType := SchedulerType.SJF, isPreemptive := false,
               readyList := [1] } }

/-- A thread-map update giving thread `t` the back-pointer to lock `l`
that the spec says `Lock::Acquire` establishes (used to show the
propagation machinery would work if the pointer were set). -/
def withDesiredLock (st : KState) (t l : Nat) : KState :=
  st.setThread t { st.threads t with desiredLock := some l }

/-- A fresh free-sector map with 40 free sectors. -/
def freeMapDemo : Bitmap := List.replicate 40 false

/-- An empty disk. -/
def emptyDisk : Disk := fun _ => []

/-- A two-header chain for the persistence witness. -/
def chainDemoHeader : FileHeader :=
  FileHeader.mk 3812 29 (List.replicate 29 7) 31
    (some (FileHeader.mk 100 1 ((32 : Int) :: List.replicate 28 0) (-1) none))

/-- Open-file table for the syscall theorems: fd 0 is a three-byte file
at seek position 0. -/
def syscallDemoTable : FileTable :=
  [{ inUse := true, openFile := some { content := [1, 2, 3], pos := 0 } }]

/-- User memory for the syscall theorems: bytes 65, 66, 0 from
address 100. -/
def syscallDemoMem : UserMem :=
  fun a => if a = 100 then 65 else if a = 101 then 66 else 0

/-! ## Theorems settling the claims -/

/-- C2: constructing a `Scheduler` with `isPreemptive = TRUE` and type
`FCFS` hits the fatal assertion; every other combination succeeds and
the constructor's final `isPreemptive = FALSE;` makes `IsPreemptive()`
return `FALSE` regardless of the parameter. -/
theorem scheduler_ctor_forces_nonpreemptive :
    mkScheduler SchedulerType.FCFS true = none ∧
    (∀ (ty : SchedulerType) (pre : Bool),
      ¬(pre = true ∧ ty = SchedulerType.FCFS) →
      ∃ s : SchedState, mkScheduler ty pre = some s ∧
        s.isPreemptive = false ∧ s.schedulerType = ty) := by
  constructor
  · rfl
  · intro ty pre h
    refine ⟨{ schedulerType := ty, isPreemptive := false, readyList := [] }, ?_, rfl, rfl⟩
    unfold mkScheduler
    rw [if_neg h]

/-- Witness for C2: the constructor applied to a preemptive `Priority`
scheduler indeed yields `isPreemptive = false`. -/
theorem scheduler_ctor_forces_nonpreemptive_witness :
    ∃ s : SchedState, mkScheduler SchedulerType.Priority true = some s ∧
      s.isPreemptive = false ∧ s.schedulerType = SchedulerType.Priority :=
  scheduler_ctor_forces_nonpreemptive.2 SchedulerType.Priority true (by decide)

/-- C10: `Thread::setPriority` clamps its argument into `[0, 7]`
(negative to 0, above 7 to 7, in-range kept), so the base priority of a
thread lies in `0..7` even when the constructor receives an
out-of-range priority. -/
theorem setPriority_clamps :
    ∀ (t : Thread) (p : Int),
      0 ≤ (setPriority t p).priority ∧ (setPriority t p).priority ≤ 7 ∧
      (p < 0 → (setPriority t p).priority = 0) ∧
      (7 < p → (setPriority t p).priority = 7) ∧
      (0 ≤ p → p ≤ 7 → (setPriority t p).priority = p) ∧
      0 ≤ (mkThread p).priority ∧ (mkThread p).priority ≤ 7 := by
  intro t p
  unfold mkThread setPriority
  dsimp only
  split <;> rename_i h1
  · refine ⟨le_refl 0, by norm_num, fun _ => rfl, fun h => absurd h (by omega),
      fun h _ => absurd h1 (by omega), le_refl 0, by norm_num⟩
  · split <;> rename_i h2
    · exact ⟨by norm_num, le_refl 7, fun h => absurd h h1, fun _ => rfl,
        fun _ h => absurd h2 (by omega), by norm_num, le_refl 7⟩
    · exact ⟨by omega, by omega, fun h => absurd h h1, fun h => absurd h2 (by omega),
        fun _ _ => rfl, by omega, by omega⟩

/-- Witness for C10: clamping at the concrete inputs `-3` and `12`. -/
theorem setPriority_clamps_witness :
    (setPriority (mkThread 5) (-3)).priority = 0 ∧
    (setPriority (mkThread 5) 12).priority = 7 ∧
    (setPriority (mkThread 5) 4).priority = 4 := by
  refine ⟨(setPriority_clamps (mkThread 5) (-3)).2.2.1 (by norm_num),
    (setPriority_clamps (mkThread 5) 12).2.2.2.1 (by norm_num),
    (setPriority_clamps (mkThread 5) 4).2.2.2.2.1 (by norm_num) (by norm_num)⟩

/-- Out-of-range default used to state open-file-table properties; it is
marked in use so that out-of-range indices never count as free slots. -/
def dfltEntry : UserOpenFileEntry := { inUse := true, openFile := none }

theorem getD_set_self {α : Type} (l : List α) (i : Nat) (v d : α)
    (h : i < l.length) : (l.set i v).getD i d = v := by
  induction l generalizing i with
  | nil => simp at h
  | cons e rest ih =>
    cases i with
    | zero => simp
    | succ j => simpa using ih j (by simpa using h)

theorem getD_set_ne {α : Type} (l : List α) (i j : Nat) (v d : α)
    (h : i ≠ j) : (l.set i v).getD j d = l.getD j d := by
  induction l generalizing i j with
  | nil => simp
  | cons e rest ih =>
    cases i with
    | zero => cases j with
      | zero => exact absurd rfl h
      | succ k => simp
    | succ i' => cases j with
      | zero => simp
      | succ k => simpa using ih i' k (by omega)

theorem addGo_all_inUse (f : FileRec) (l : List UserOpenFileEntry) (i0 : Nat)
    (h : ∀ e ∈ l, e.inUse = true) :
    addOpenFileEntry.go f l i0 = (-1, l) := by
  induction l generalizing i0 with
  | nil => rfl
  | cons e rest ih =>
    have he : e.inUse = true := h e (by simp)
    simp only [addOpenFileEntry.go]
    rw [if_neg (by simp [he]), ih (i0 + 1) (fun x hx => h x (by simp [hx]))]

theorem addGo_free (f : FileRec) (l : List UserOpenFileEntry) (i0 i : Nat)
    (hfree : (l.getD i dfltEntry).inUse = false)
    (hbefore : ∀ j, j < i → (l.getD j dfltEntry).inUse = true) :
    addOpenFileEntry.go f l i0 =
      (((i0 + i : Nat) : Int), l.set i { inUse := true, openFile := some f }) := by
  induction l generalizing i0 i with
  | nil => simp [dfltEntry] at hfree
  | cons e rest ih =>
    cases i with
    | zero =>
      simp only [List.getD_cons_zero] at hfree
      simp [addOpenFileEntry.go, hfree]
    | succ j =>
      have he : e.inUse = true := by
        have := hbefore 0 (by omega)
        simpa using this
      simp only [addOpenFileEntry.go]
      rw [if_neg (by simp [he])]
      have hrest := ih (i0 + 1) j (by simpa using hfree)
        (fun k hk => by simpa using hbefore (k + 1) (by omega))
      rw [hrest]
      simp only [List.set_cons_succ]
      have harith : i0 + 1 + j = i0 + (j + 1) := by omega
      rw [harith]

/-- C9: the per-thread open-file table has fixed capacity
`MaxNumUserOpenFiles`; `AddOpenFileEntry` stores at the lowest-index
free slot and returns that index, or `-1` when all slots are in use;
`RemoveOpenFileEntry` returns `FALSE` for an out-of-range or unused fd
and frees the slot otherwise; consequently, on a full table, closing
`fd` and adding another file reassigns exactly `fd`. -/
theorem openFileTable_spec :
    initFileTable.length = MaxNumUserOpenFiles ∧
    (∀ (table : FileTable) (f : FileRec), (∀ e ∈ table, e.inUse = true) →
      addOpenFileEntry table f = (-1, table)) ∧
    (∀ (table : FileTable) (f : FileRec) (i : Nat),
      (table.getD i dfltEntry).inUse = false →
      (∀ j, j < i → (table.getD j dfltEntry).inUse = true) →
      addOpenFileEntry table f =
        ((i : Int), table.set i { inUse := true, openFile := some f })) ∧
    (∀ (table : FileTable) (fd : Int),
      (fd < 0 ∨ (MaxNumUserOpenFiles : Int) ≤ fd) →
      removeOpenFileEntry table fd = (false, table)) ∧
    (∀ (table : FileTable) (fd : Int) (e : UserOpenFileEntry),
      0 ≤ fd → fd < (MaxNumUserOpenFiles : Int) → table.get? fd.toNat = some e →
      e.inUse = false → removeOpenFileEntry table fd = (false, table)) ∧
    (∀ (table : FileTable) (fd : Int) (e : UserOpenFileEntry),
      0 ≤ fd → fd < (MaxNumUserOpenFiles : Int) → table.get? fd.toNat = some e →
      e.inUse = true →
      removeOpenFileEntry table fd =
        (true, table.set fd.toNat { inUse := false, openFile := none })) ∧
    (∀ (table : FileTable) (fd : Nat) (f : FileRec) (e : UserOpenFileEntry),
      table.length = MaxNumUserOpenFiles →
      (∀ x ∈ table, x.inUse = true) → table.get? fd = some e →
      (addOpenFileEntry (removeOpenFileEntry table (fd : Int)).2 f).1 =
        (fd : Int)) := by
  refine ⟨rfl, ?_, ?_, ?_, ?_, ?_, ?_⟩
  · intro table f h
    exact addGo_all_inUse f table 0 h
  · intro table f i hfree hbefore
    have := addGo_free f table 0 i hfree hbefore
    simpa using this
  · intro table fd h
    unfold removeOpenFileEntry
    rw [if_pos]
    omega
  · intro table fd e h0 h1 hget hfalse
    unfold removeOpenFileEntry
    rw [if_neg (by omega)]
    have hget' : table[fd.toNat]? = some e := by
      rw [← List.get?_eq_getElem?]; exact hget
    simp [hget', hfalse]
  · intro table fd e h0 h1 hget htrue
    unfold removeOpenFileEntry
    rw [if_neg (by omega)]
    have hget' : table[fd.toNat]? = some e := by
      rw [← List.get?_eq_getElem?]; exact hget
    simp [hget', htrue]
  · intro table fd f e hlen hfull hget
    have hfdlt : fd < table.length := List.get?_eq_some.mp hget |>.1
    have he : e.inUse = true := hfull e (List.get?_mem hget)
    have hrem : removeOpenFileEntry table (fd : Int) =
        (true, table.set fd { inUse := false, openFile := none }) := by
      unfold removeOpenFileEntry
      rw [if_neg (by omega)]
      simp only [Int.toNat_natCast]
      have hget' : table[fd]? = some e := by
        rw [← List.get?_eq_getElem?]; exact hget
      simp [hget', he]
    rw [hrem]
    have hfree : ((table.set fd { inUse := false, openFile := none }).getD fd
        dfltEntry).inUse = false := by
      rw [getD_set_self _ _ _ _ hfdlt]
    have hbefore : ∀ j, j < fd →
        ((table.set fd { inUse := false, openFile := none }).getD j
          dfltEntry).inUse = true := by
      intro j hj
      rw [getD_set_ne _ _ _ _ _ (by omega)]
      have hjlt : j < table.length := by omega
      have hmem : table.getD j dfltEntry ∈ table := by
        rw [List.getD_eq_getElem _ _ hjlt]
        exact List.getElem_mem hjlt
      exact hfull _ hmem
    have := addGo_free f (table.set fd { inUse := false, openFile := none })
      0 fd hfree hbefore
    simp only [addOpenFileEntry]
    rw [this]
    simp

/-- Witness for C9: on a concrete full three-used-slot prefix table,
closing fd 1 and opening again reassigns fd 1; a free middle slot is the
one assigned; a full table overflows with `-1`. -/
theorem openFileTable_spec_witness :
    (addOpenFileEntry
      [⟨true, none⟩, ⟨false, none⟩, ⟨true, none⟩,
       ⟨true, none⟩, ⟨true, none⟩] ⟨[], 0⟩).1 = (1 : Int) ∧
    addOpenFileEntry
      [⟨true, none⟩, ⟨true, none⟩, ⟨true, none⟩,
       ⟨true, none⟩, ⟨true, none⟩] ⟨[], 0⟩ =
      (-1, [⟨true, none⟩, ⟨true, none⟩, ⟨true, none⟩,
            ⟨true, none⟩, ⟨true, none⟩]) ∧
    (addOpenFileEntry
      (removeOpenFileEntry
        [⟨true, none⟩, ⟨true, none⟩, ⟨true, none⟩,
         ⟨true, none⟩, ⟨true, none⟩] (2 : Int)).2 ⟨[], 0⟩).1 = (2 : Int) := by
  refine ⟨?_, ?_, ?_⟩
  · have := openFileTable_spec.2.2.1
      [⟨true, none⟩, ⟨false, none⟩, ⟨true, none⟩, ⟨true, none⟩, ⟨true, none⟩]
      ⟨[], 0⟩ 1 (by decide) (by decide)
    rw [this]
    norm_num
  · exact openFileTable_spec.2.1
      [⟨true, none⟩, ⟨true, none⟩, ⟨true, none⟩, ⟨true, none⟩, ⟨true, none⟩]
      ⟨[], 0⟩ (by decide)
  · exact openFileTable_spec.2.2.2.2.2.2
      [⟨true, none⟩, ⟨true, none⟩, ⟨true, none⟩, ⟨true, none⟩, ⟨true, none⟩]
      2 ⟨[], 0⟩ ⟨true, none⟩ rfl (by decide) rfl

/-! ### Lemmas about the ready list and `Lock::Release` (claim C1) -/

theorem sortedInsert_perm (cmp : Nat → Nat → Int) (x : Nat) :
    ∀ l : List Nat, (sortedInsert cmp x l).Perm (x :: l) := by
  intro l
  induction l with
  | nil => exact List.Perm.refl _
  | cons y ys ih =>
    unfold sortedInsert
    split
    · exact List.Perm.refl _
    · exact (List.Perm.cons y ih).trans (List.Perm.swap x y ys)

theorem readyToRun_threads_self (st : KState) (i : Nat) :
    (readyToRun st i).threads i = { st.threads i with status := ThreadStatus.READY } := by
  simp [readyToRun, KState.setThread]

theorem readyToRun_threads_ne (st : KState) (i t : Nat) (h : t ≠ i) :
    (readyToRun st i).threads t = st.threads t := by
  simp [readyToRun, KState.setThread, h]

theorem readyToRun_locks (st : KState) (i : Nat) :
    (readyToRun st i).locks = st.locks := rfl

theorem readyToRun_schedType (st : KState) (i : Nat) :
    (readyToRun st i).sched.schedulerType = st.sched.schedulerType ∧
    (readyToRun st i).sched.isPreemptive = st.sched.isPreemptive :=
  ⟨rfl, rfl⟩

theorem readyToRun_perm (st : KState) (i : Nat) :
    (readyToRun st i).sched.readyList.Perm (i :: st.sched.readyList) :=
  sortedInsert_perm _ i _

theorem updateReadyList_threads (st : KState) (i : Nat) :
    (updateReadyList st i).threads = st.threads := by
  unfold updateReadyList
  split <;> rfl

theorem updateReadyList_locks (st : KState) (i : Nat) :
    (updateReadyList st i).locks = st.locks := by
  unfold updateReadyList
  split <;> rfl

theorem updateReadyList_schedType (st : KState) (i : Nat) :
    (updateReadyList st i).sched.schedulerType = st.sched.schedulerType ∧
    (updateReadyList st i).sched.isPreemptive = st.sched.isPreemptive := by
  unfold updateReadyList
  split <;> exact ⟨rfl, rfl⟩

theorem updateReadyList_perm (st : KState) (i : Nat) :
    (updateReadyList st i).sched.readyList.Perm st.sched.readyList := by
  unfold updateReadyList
  split <;> rename_i hmem
  · exact (sortedInsert_perm _ i _).trans (List.perm_cons_erase hmem).symm
  · exact List.Perm.refl _

theorem resetEff_eq_true (st : KState) (h : Nat)
    (hd : (st.threads h).isDonated = true) :
    resetEffectivePriority st h =
      (true, updateReadyList
        (st.setThread h { st.threads h with isDonated := false }) h) := by
  simp [resetEffectivePriority, hd]

theorem resetEff_eq_false (st : KState) (h : Nat)
    (hd : (st.threads h).isDonated = false) :
    resetEffectivePriority st h = (false, st) := by
  simp [resetEffectivePriority, hd]

theorem resetEffectivePriority_spec (st : KState) (h : Nat) :
    (resetEffectivePriority st h).1 = (st.threads h).isDonated ∧
    ((resetEffectivePriority st h).2.threads h).isDonated = false ∧
    (∀ t, t ≠ h → (resetEffectivePriority st h).2.threads t = st.threads t) ∧
    (resetEffectivePriority st h).2.locks = st.locks ∧
    (resetEffectivePriority st h).2.sched.schedulerType = st.sched.schedulerType ∧
    (resetEffectivePriority st h).2.sched.isPreemptive = st.sched.isPreemptive ∧
    (resetEffectivePriority st h).2.sched.readyList.Perm st.sched.readyList := by
  by_cases hd : (st.threads h).isDonated = true
  · rw [resetEff_eq_true st h hd]
    refine ⟨hd.symm, ?_, ?_, ?_, ?_, ?_, ?_⟩
    · rw [updateReadyList_threads]
      simp [KState.setThread]
    · intro t ht
      rw [updateReadyList_threads]
      simp [KState.setThread, ht]
    · rw [updateReadyList_locks]
      rfl
    · exact (updateReadyList_schedType _ _).1
    · exact (updateReadyList_schedType _ _).2
    · exact updateReadyList_perm _ _
  · simp only [Bool.not_eq_true] at hd
    rw [resetEff_eq_false st h hd]
    exact ⟨hd.symm, hd, fun t _ => rfl, rfl, rfl, rfl, List.Perm.refl _⟩

theorem drain_perm (l : List Nat) (st : KState) :
    (l.foldl readyToRun st).sched.readyList.Perm (l ++ st.sched.readyList) := by
  induction l generalizing st with
  | nil => exact List.Perm.refl _
  | cons x xs ih =>
    have step := readyToRun_perm st x
    have hfold : ((x :: xs).foldl readyToRun st) =
        (xs.foldl readyToRun (readyToRun st x)) := rfl
    rw [hfold]
    refine (ih (readyToRun st x)).trans ?_
    refine (List.Perm.append_left xs step).trans ?_
    exact List.perm_middle

theorem drain_status (l : List Nat) (st : KState) (t : Nat) :
    ((st.threads t).status = ThreadStatus.READY ∨ t ∈ l) →
    ((l.foldl readyToRun st).threads t).status = ThreadStatus.READY := by
  induction l generalizing st with
  | nil =>
    intro h
    rcases h with h | h
    · exact h
    · simp at h
  | cons x xs ih =>
    intro h
    apply ih
    by_cases hx : t = x
    · left
      subst hx
      rw [readyToRun_threads_self]
    · rcases h with h | h
      · left
        rw [readyToRun_threads_ne st x t hx]
        exact h
      · simp at h
        rcases h with h | h
        · exact absurd h hx
        · right; exact h

theorem drain_threads_other (l : List Nat) (st : KState) (t : Nat)
    (h : t ∉ l) : (l.foldl readyToRun st).threads t = st.threads t := by
  induction l generalizing st with
  | nil => rfl
  | cons x xs ih =>
    have hx : t ≠ x := fun he => h (by simp [he])
    have hxs : t ∉ xs := fun hm => h (by simp [hm])
    have hfold : ((x :: xs).foldl readyToRun st) =
        (xs.foldl readyToRun (readyToRun st x)) := rfl
    rw [hfold, ih _ hxs, readyToRun_threads_ne st x t hx]

theorem drain_isDonated (l : List Nat) (st : KState) (t : Nat) :
    ((l.foldl readyToRun st).threads t).isDonated = (st.threads t).isDonated := by
  induction l generalizing st with
  | nil => rfl
  | cons x xs ih =>
    have hstep : ((readyToRun st x).threads t).isDonated =
        (st.threads t).isDonated := by
      by_cases hx : t = x
      · subst hx
        rw [readyToRun_threads_self]
      · rw [readyToRun_threads_ne st x t hx]
    have hfold : ((x :: xs).foldl readyToRun st) =
        (xs.foldl readyToRun (readyToRun st x)) := rfl
    rw [hfold, ih (readyToRun st x), hstep]

theorem drain_locks (l : List Nat) (st : KState) :
    (l.foldl readyToRun st).locks = st.locks := by
  induction l generalizing st with
  | nil => rfl
  | cons x xs ih =>
    have hfold : ((x :: xs).foldl readyToRun st) =
        (xs.foldl readyToRun (readyToRun st x)) := rfl
    rw [hfold, ih _]
    rfl

theorem drain_schedType (l : List Nat) (st : KState) :
    (l.foldl readyToRun st).sched.schedulerType = st.sched.schedulerType ∧
    (l.foldl readyToRun st).sched.isPreemptive = st.sched.isPreemptive := by
  induction l generalizing st with
  | nil => exact ⟨rfl, rfl⟩
  | cons x xs ih =>
    have := ih (readyToRun st x)
    exact ⟨this.1, this.2⟩

/-- C1: when the owner `h` releases a lock, `Lock::Release` resets the
holder's donation flag, moves every thread of the waiter queue to the
ready list (so the queue is empty afterwards, and the ready list gains
exactly the waiters), clears the owner and the busy flag, and the
releasing thread yields immediately exactly when the scheduler is
preemptive and the holder had been donated to. -/
theorem lockRelease_spec (st : KState) (l : Nat) (h : Nat)
    (hHolder : (st.locks l).lockHolder = some h)
    (hLocked : (st.locks l).locked = true) :
    ((release st l).1.locks l).waitQueue = [] ∧
    ((release st l).1.locks l).lockHolder = none ∧
    ((release st l).1.locks l).locked = false ∧
    ((release st l).1.threads h).isDonated = false ∧
    (∀ t ∈ (st.locks l).waitQueue,
      t ∈ (release st l).1.sched.readyList ∧
      ((release st l).1.threads t).status = ThreadStatus.READY) ∧
    (release st l).1.sched.readyList.Perm
      ((st.locks l).waitQueue ++ st.sched.readyList) ∧
    (release st l).2 = (st.sched.isPreemptive && (st.threads h).isDonated) := by
  have hreset := resetEffectivePriority_spec st h
  have hrel : release st l =
      (((((resetEffectivePriority st h).2.locks l).waitQueue).foldl readyToRun
          (resetEffectivePriority st h).2).setLock l
        { ((((resetEffectivePriority st h).2.locks l).waitQueue).foldl readyToRun
            (resetEffectivePriority st h).2).locks l with
          locked := false, lockHolder := none, waitQueue := [] },
       ((((((resetEffectivePriority st h).2.locks l).waitQueue).foldl readyToRun
          (resetEffectivePriority st h).2).setLock l
        { ((((resetEffectivePriority st h).2.locks l).waitQueue).foldl readyToRun
            (resetEffectivePriority st h).2).locks l with
          locked := false, lockHolder := none,
          waitQueue := [] }).sched.isPreemptive
         && (resetEffectivePriority st h).1)) := by
    unfold release
    rw [hHolder]
  rw [hrel]
  set st1 := (resetEffectivePriority st h).2 with hst1
  have hq1 : (st1.locks l).waitQueue = (st.locks l).waitQueue := by
    rw [hreset.2.2.2.1]
  set wq := (st1.locks l).waitQueue with hwq
  set st2 := wq.foldl readyToRun st1 with hst2
  have hlock2 : ∀ lk : LockState,
      ((st2.setLock l lk).locks l) = lk := by
    intro lk
    simp [KState.setLock]
  have hth3 : ∀ lk : LockState, (st2.setLock l lk).threads = st2.threads :=
    fun _ => rfl
  have hsched3 : ∀ lk : LockState, (st2.setLock l lk).sched = st2.sched :=
    fun _ => rfl
  refine ⟨?_, ?_, ?_, ?_, ?_, ?_, ?_⟩
  · rw [hlock2]
  · rw [hlock2]
  · rw [hlock2]
  · -- the holder's donation flag
    rw [hth3]
    show ((wq.foldl readyToRun st1).threads h).isDonated = false
    rw [drain_isDonated]
    exact hreset.2.1
  · intro t ht
    constructor
    · rw [hsched3]
      show t ∈ st2.sched.readyList
      have hperm := drain_perm wq st1
      have htwq : t ∈ wq := by
        rw [hq1]
        exact ht
      exact hperm.mem_iff.mpr (List.mem_append_left _ htwq)
    · rw [hth3]
      show ((wq.foldl readyToRun st1).threads t).status = ThreadStatus.READY
      apply drain_status
      right
      rw [hq1]
      exact ht
  · rw [hsched3]
    show st2.sched.readyList.Perm ((st.locks l).waitQueue ++ st.sched.readyList)
    have hstep : List.Perm (wq ++ st1.sched.readyList)
        ((st.locks l).waitQueue ++ st.sched.readyList) := by
      rw [hq1]
      exact List.Perm.append_left _ hreset.2.2.2.2.2.2
    exact (drain_perm wq st1).trans hstep
  · rw [hsched3]
    have hpre : st2.sched.isPreemptive = st.sched.isPreemptive := by
      rw [hst2, (drain_schedType wq st1).2, hreset.2.2.2.2.2.1]
    rw [hpre, hreset.1]

/-! ### Donation lemmas (claims C3, C4) -/

/-- The effective-priority invariant of the spec: every thread's
effective priority is at least its base priority. -/
def effInvariant (st : KState) : Prop :=
  ∀ t, (st.threads t).priority ≤ getEffectivePriority (st.threads t)

/-- Property: `DonatePriority` and `setEffectivePriority` only touch the donation
cell of threads and the ready list: everything else — scheduler type,
preemption flag, locks, and each thread's base priority, status, burst
data and back-pointers — is unchanged. -/
def sameShape (st st' : KState) : Prop :=
  st'.sched.schedulerType = st.sched.schedulerType ∧
  st'.sched.isPreemptive = st.sched.isPreemptive ∧
  st'.locks = st.locks ∧
  ∀ t, (st'.threads t).priority = (st.threads t).priority ∧
    (st'.threads t).status = (st.threads t).status ∧
    (st'.threads t).burstTime = (st.threads t).burstTime ∧
    (st'.threads t).startTicks = (st.threads t).startTicks ∧
    (st'.threads t).desiredLock = (st.threads t).desiredLock ∧
    (st'.threads t).desiredJoin = (st.threads t).desiredJoin

theorem sameShape_refl (st : KState) : sameShape st st :=
  ⟨rfl, rfl, rfl, fun _ => ⟨rfl, rfl, rfl, rfl, rfl, rfl⟩⟩

theorem sameShape_trans {a b c : KState} (h1 : sameShape a b)
    (h2 : sameShape b c) : sameShape a c := by
  obtain ⟨t1, p1, l1, m1⟩ := h1
  obtain ⟨t2, p2, l2, m2⟩ := h2
  refine ⟨t2.trans t1, p2.trans p1, l2.trans l1, fun t => ?_⟩
  obtain ⟨a1, a2, a3, a4, a5, a6⟩ := m1 t
  obtain ⟨b1, b2, b3, b4, b5, b6⟩ := m2 t
  exact ⟨b1.trans a1, b2.trans a2, b3.trans a3, b4.trans a4,
    b5.trans a5, b6.trans a6⟩

/-- The state after `setEffectivePriority`'s own field update and
ready-list re-sort, before the transitive notifications. -/
def setEffCore (st : KState) (i : Nat) (v : Int) : KState :=
  updateReadyList
    (st.setThread i
      { st.threads i with donatedPriority := v, isDonated := true }) i

theorem setEffCore_shape (st : KState) (i : Nat) (v : Int) :
    sameShape st (setEffCore st i v) := by
  unfold setEffCore
  refine ⟨(updateReadyList_schedType _ _).1, (updateReadyList_schedType _ _).2,
    ?_, fun t => ?_⟩
  · rw [updateReadyList_locks]
    rfl
  · rw [updateReadyList_threads]
    by_cases ht : t = i
    · subst ht
      simp [KState.setThread]
    · simp [KState.setThread, ht]

theorem setEffCore_threads_self (st : KState) (i : Nat) (v : Int) :
    (setEffCore st i v).threads i =
      { st.threads i with donatedPriority := v, isDonated := true } := by
  unfold setEffCore
  rw [updateReadyList_threads]
  simp [KState.setThread]

theorem setEffCore_threads_ne (st : KState) (i t : Nat) (v : Int)
    (h : t ≠ i) : (setEffCore st i v).threads t = st.threads t := by
  unfold setEffCore
  rw [updateReadyList_threads]
  simp [KState.setThread, h]

theorem setEffCore_inv (st : KState) (i : Nat) (v : Int)
    (hinv : effInvariant st) (hv : (st.threads i).priority ≤ v) :
    effInvariant (setEffCore st i v) := by
  intro t
  by_cases ht : t = i
  · subst ht
    rw [setEffCore_threads_self]
    simpa [getEffectivePriority] using hv
  · rw [setEffCore_threads_ne st i t v ht]
    exact hinv t

/-- The unfolding of `setEffectivePriority` through `setEffCore`. -/
theorem setEff_eq (fuel : Nat) (st : KState) (i : Nat) (v : Int) :
    setEffectivePriority fuel st i v =
      (let st2 := setEffCore st i v
       let st3 :=
         match (st2.threads i).desiredLock with
         | none => st2
         | some l =>
           match (st2.locks l).lockHolder with
           | none => st2
           | some h => donatePriority fuel st2 i h
       match (st3.threads i).desiredJoin with
       | none => st3
       | some j => donatePriority fuel st3 i j) := rfl

/-- The comparator `if x > y then -1 else if x < y then 1 else 0`
returns a negative value exactly when `x > y`. -/
theorem cmp_neg_iff (x y : Int) :
    ((if x > y then (-1 : Int) else if x < y then 1 else 0) < 0) ↔ y < x := by
  by_cases h1 : x > y
  · simp only [if_pos h1]
    omega
  · rw [if_neg h1]
    by_cases h2 : x < y
    · rw [if_pos h2]
      omega
    · rw [if_neg h2]
      omega

/-- The SJF comparator returns a negative value exactly when the first
burst is smaller. -/
theorem cmp_burst_neg_iff (x y : Int) :
    ((if x < y then (-1 : Int) else if x > y then 1 else 0) < 0) ↔ x < y := by
  by_cases h1 : x < y
  · simp only [if_pos h1]
    omega
  · rw [if_neg h1]
    by_cases h2 : x > y
    · rw [if_pos h2]
      omega
    · rw [if_neg h2]
      omega

/-- The invariant-relevant content of one `DonatePriority` comparison:
under any non-SJF policy, a negative comparison guarantees the donor's
effective priority is above the donee's base priority (given the
invariant for the threads involved). -/
theorem donate_cond_bound (st : KState) (doner donee : Nat)
    (hty : st.sched.schedulerType ≠ SchedulerType.SJF)
    (hinv : effInvariant st)
    (hlt : compareThread st doner donee < 0) :
    (st.threads donee).priority ≤
      getEffectivePriority (st.threads doner) := by
  unfold compareThread threadComparator at hlt
  split at hlt <;> rename_i hsty
  · -- Priority
    by_cases hp : st.sched.isPreemptive = true
    · rw [if_pos hp] at hlt
      unfold effectivePriorityComparator at hlt
      rw [cmp_neg_iff] at hlt
      exact le_trans (hinv donee) (le_of_lt hlt)
    · rw [if_neg hp] at hlt
      unfold priorityComparator at hlt
      rw [cmp_neg_iff] at hlt
      exact le_of_lt (lt_of_lt_of_le hlt (hinv doner))
  · omega   -- RR: comparator is 0
  · omega   -- FCFS: comparator is 0
  · exact absurd hsty hty  -- SJF excluded

theorem donate_zero (st : KState) (a b : Nat) :
    donatePriority 0 st a b = st := rfl

theorem donate_succ (n : Nat) (st : KState) (a b : Nat) :
    donatePriority (n + 1) st a b =
      if compareThread st a b < 0 then
        setEffectivePriority n st b (getEffectivePriority (st.threads a))
      else st := rfl

/-- One layer of `setEffectivePriority`: given that `DonatePriority`
with the same fuel keeps the state's shape and the invariant, so does
`setEffectivePriority` (provided the donated value dominates the base
priority). -/
theorem setEff_step (fuel : Nat)
    (hP : ∀ st (a b : Nat), sameShape st (donatePriority fuel st a b) ∧
      (st.sched.schedulerType ≠ SchedulerType.SJF → effInvariant st →
        effInvariant (donatePriority fuel st a b))) :
    ∀ st (i : Nat) (v : Int), sameShape st (setEffectivePriority fuel st i v) ∧
      (st.sched.schedulerType ≠ SchedulerType.SJF → effInvariant st →
        (st.threads i).priority ≤ v →
        effInvariant (setEffectivePriority fuel st i v)) := by
  intro st i v
  rw [setEff_eq fuel st i v]
  dsimp only
  have hshape2 : sameShape st (setEffCore st i v) := setEffCore_shape st i v
  have hty2 : (setEffCore st i v).sched.schedulerType = st.sched.schedulerType :=
    hshape2.1
  rcases hdl : ((setEffCore st i v).threads i).desiredLock with _ | l
  · dsimp only
    rcases hdj : ((setEffCore st i v).threads i).desiredJoin with _ | j
    · dsimp only
      exact ⟨hshape2, fun _ hinv hv => setEffCore_inv st i v hinv hv⟩
    · dsimp only
      have hp := hP (setEffCore st i v) i j
      refine ⟨sameShape_trans hshape2 hp.1, fun hty hinv hv => ?_⟩
      exact hp.2 (by rw [hty2]; exact hty) (setEffCore_inv st i v hinv hv)
  · dsimp only
    rcases hlh : ((setEffCore st i v).locks l).lockHolder with _ | h
    · dsimp only
      rcases hdj : ((setEffCore st i v).threads i).desiredJoin with _ | j
      · dsimp only
        exact ⟨hshape2, fun _ hinv hv => setEffCore_inv st i v hinv hv⟩
      · dsimp only
        have hp := hP (setEffCore st i v) i j
        refine ⟨sameShape_trans hshape2 hp.1, fun hty hinv hv => ?_⟩
        exact hp.2 (by rw [hty2]; exact hty) (setEffCore_inv st i v hinv hv)
    · dsimp only
      have hp3 := hP (setEffCore st i v) i h
      have hshape3 : sameShape st (donatePriority fuel (setEffCore st i v) i h) :=
        sameShape_trans hshape2 hp3.1
      have hty3 : (donatePriority fuel (setEffCore st i v) i h).sched.schedulerType
          = st.sched.schedulerType := hshape3.1
      rcases hdj : ((donatePriority fuel (setEffCore st i v) i h).threads
          i).desiredJoin with _ | j
      · dsimp only
        refine ⟨hshape3, fun hty hinv hv => ?_⟩
        exact hp3.2 (by rw [hty2]; exact hty) (setEffCore_inv st i v hinv hv)
      · dsimp only
        have hp4 := hP (donatePriority fuel (setEffCore st i v) i h) i j
        refine ⟨sameShape_trans hshape3 hp4.1, fun hty hinv hv => ?_⟩
        refine hp4.2 (by rw [hty3]; exact hty) ?_
        exact hp3.2 (by rw [hty2]; exact hty) (setEffCore_inv st i v hinv hv)

/-- Lemma: `DonatePriority` keeps the state's shape, and — under every
scheduler type except SJF — preserves the effective-priority
invariant. -/
theorem donation_shape_inv : ∀ (fuel : Nat) (st : KState) (a b : Nat),
    sameShape st (donatePriority fuel st a b) ∧
    (st.sched.schedulerType ≠ SchedulerType.SJF → effInvariant st →
      effInvariant (donatePriority fuel st a b)) := by
  intro fuel
  induction fuel with
  | zero =>
    intro st a b
    rw [donate_zero]
    exact ⟨sameShape_refl st, fun _ h => h⟩
  | succ n ih =>
    intro st a b
    rw [donate_succ]
    by_cases hlt : compareThread st a b < 0
    · rw [if_pos hlt]
      have hQ := setEff_step n ih st b (getEffectivePriority (st.threads a))
      refine ⟨hQ.1, fun hty hinv => hQ.2 hty hinv ?_⟩
      exact donate_cond_bound st a b hty hinv hlt
    · rw [if_neg hlt]
      exact ⟨sameShape_refl st, fun _ h => h⟩


/-- Lemma: `burstSmooth` agrees with the spec's rational formula
`alpha * actual + (1 - alpha) * burst` truncated toward zero, for
`alpha = 1/2`. -/
theorem burstSmooth_eq_formula (a b : Int) :
    burstSmooth a b = cTruncate (alpha * (a : ℚ) + (1 - alpha) * (b : ℚ)) := by
  have hq : alpha * (a : ℚ) + (1 - alpha) * (b : ℚ) =
      ((a + b : ℤ) : ℚ) / ((2 : ℕ) : ℚ) := by
    unfold alpha
    push_cast
    ring
  rw [hq]
  unfold burstSmooth cTruncate
  set n : ℤ := a + b with hn
  by_cases hneg : n < 0
  · rw [if_pos]
    · have hc : ⌈((n : ℚ)) / ((2:ℕ) : ℚ)⌉ = -⌊-(((n : ℚ)) / ((2:ℕ) : ℚ))⌋ := by
        rw [Int.floor_neg]
        ring
      rw [hc]
      have he : -(((n : ℚ)) / ((2:ℕ) : ℚ)) = (((-n : ℤ) : ℚ)) / ((2:ℕ) : ℚ) := by
        push_cast
        ring
      rw [he, Rat.floor_intCast_div_natCast]
      have h1 : n.tdiv 2 = -((-n).tdiv 2) := by
        conv_lhs => rw [show n = -(-n) by ring]
        rw [Int.neg_tdiv]
      rw [h1, Int.tdiv_eq_ediv (by omega) (by norm_num)]
      norm_num
    · apply div_neg_of_neg_of_pos
      · exact_mod_cast hneg
      · norm_num
  · rw [if_neg]
    · rw [Rat.floor_intCast_div_natCast, Int.tdiv_eq_ediv (by omega) (by norm_num)]
      norm_num
    · push_neg
      apply div_nonneg
      · exact_mod_cast (by omega : (0:ℤ) ≤ n)
      · norm_num

/-- Counterexample for C3: under an SJF scheduler, `DonatePriority` from
a low-priority short-burst thread sets the donee's effective priority
below its base priority.  Before the donation both threads satisfy the
invariant; after it, thread 1 (base priority 7) has effective
priority 0. -/
theorem effInvariant_sjf_counterexample :
    sjfDemoState.sched.schedulerType = SchedulerType.SJF ∧
    (sjfDemoState.threads 0).priority ≤
      getEffectivePriority (sjfDemoState.threads 0) ∧
    (sjfDemoState.threads 1).priority ≤
      getEffectivePriority (sjfDemoState.threads 1) ∧
    getEffectivePriority ((donatePriority 1 sjfDemoState 0 1).threads 1) = 0 ∧
    ((donatePriority 1 sjfDemoState 0 1).threads 1).priority = 7 ∧
    getEffectivePriority ((donatePriority 1 sjfDemoState 0 1).threads 1) <
      ((donatePriority 1 sjfDemoState 0 1).threads 1).priority := by
  decide

/-- C3 (amended): the invariant `effectivePriority(t) ≥ priority(t)` is
preserved by `Thread::resetEffectivePriority` always, and by
`Scheduler::DonatePriority` (with its transitive propagation through
`setEffectivePriority`) under the FCFS, RR and Priority policies; under
SJF the donation step can violate it (see the counterexample). -/
theorem effInvariant_preserved :
    (∀ (st : KState) (h : Nat), effInvariant st →
      effInvariant (resetEffectivePriority st h).2) ∧
    (∀ (fuel : Nat) (st : KState) (doner donee : Nat),
      st.sched.schedulerType ≠ SchedulerType.SJF → effInvariant st →
      effInvariant (donatePriority fuel st doner donee)) := by
  constructor
  · intro st h hinv t
    by_cases hd : (st.threads h).isDonated = true
    · rw [resetEff_eq_true st h hd]
      by_cases ht : t = h
      · subst ht
        rw [updateReadyList_threads]
        simp [KState.setThread, getEffectivePriority]
      · rw [updateReadyList_threads]
        have hne : (st.setThread h
            { st.threads h with isDonated := false }).threads t
            = st.threads t := by
          simp [KState.setThread, ht]
        rw [hne]
        exact hinv t
    · simp only [Bool.not_eq_true] at hd
      rw [resetEff_eq_false st h hd]
      exact hinv t
  · intro fuel st doner donee hty hinv
    exact (donation_shape_inv fuel st doner donee).2 hty hinv

/-- Witness for C3: the preserved invariant, instantiated on a concrete
preemptive-Priority donation (thread 0, priority 6, donates to thread 1,
priority 2) and on a concrete donation-flag reset. -/
theorem effInvariant_preserved_witness :
    ((resetEffectivePriority releaseDemoState 0).2.threads 0).priority ≤
      getEffectivePriority
        ((resetEffectivePriority releaseDemoState 0).2.threads 0) ∧
    ((donatePriority 2 priDemoState 0 1).threads 1).priority ≤
      getEffectivePriority ((donatePriority 2 priDemoState 0 1).threads 1) := by
  constructor
  · refine effInvariant_preserved.1 releaseDemoState 0 ?_ 0
    intro t
    by_cases ht : t = 0 <;>
      simp [releaseDemoState, demoThread, getEffectivePriority, ht]
  · refine effInvariant_preserved.2 2 priDemoState 0 1 (by decide) ?_ 1
    intro t
    by_cases ht : t = 0 <;>
      simp [priDemoState, demoThread, getEffectivePriority, ht]

/-- C4: the transitive-propagation machinery in
`Thread::setEffectivePriority` does fire through `desiredLock` when that
pointer is set — but `Lock::Acquire` never calls
`Thread::setDesiredLock`, so a thread blocking in `Acquire` keeps
`desiredLock = none` and later donations to it never reach the lock
holder.  Concretely: thread 1 blocks on lock 0 held by thread 0; the
blocking iteration leaves `desiredLock = none`; a subsequent donation of
priority 9 to thread 1 leaves the holder's effective priority at 7,
whereas with `desiredLock` set (as the claim asserts) the holder would
be raised to 9. -/
theorem acquire_leaves_desiredLock_unset :
    (acquireDemoState.locks 0).locked = true ∧
    (acquireDemoState.locks 0).lockHolder = some 0 ∧
    (acquireDemoState.threads 1).desiredLock = none ∧
    ((acquireBlockedIter 8 acquireDemoState 0 1).threads 1).desiredLock
      = none ∧
    ((acquireBlockedIter 8 acquireDemoState 0 1).threads 1).status
      = ThreadStatus.BLOCKED ∧
    ((acquireBlockedIter 8 acquireDemoState 0 1).locks 0).waitQueue = [1] ∧
    getEffectivePriority
      ((acquireBlockedIter 8 acquireDemoState 0 1).threads 0) = 7 ∧
    getEffectivePriority
      ((setEffectivePriority 8 (acquireBlockedIter 8 acquireDemoState 0 1)
        1 9).threads 0) = 7 ∧
    getEffectivePriority
      ((setEffectivePriority 8
        (withDesiredLock (acquireBlockedIter 8 acquireDemoState 0 1) 1 0)
        1 9).threads 0) = 9 := by
  decide

/-- Counterexample for C5: `Thread::Yield` with an empty ready list
returns without touching `burstTime` (the update sits inside
`if (nextThread != NULL && nextThread != this)`), so the prediction is
not updated on every `Yield` call: here the formula value is 15 but the
stored prediction stays 10. -/
theorem burst_yield_counterexample :
    burstDemoState.sched.readyList = [] ∧
    ((yield burstDemoState 0 20).threads 0).burstTime = 10 ∧
    burstSmooth (20 - (burstDemoState.threads 0).startTicks)
      ((burstDemoState.threads 0).burstTime) = 15 ∧
    ((10 : Int) ≠ 15) := by
  decide

theorem runThread_burst (st : KState) (n cur : Nat) (userTicks : Int) :
    ((runThread st n userTicks).threads cur).burstTime =
      (st.threads cur).burstTime := by
  by_cases h : cur = n
  · subst h
    simp [runThread, KState.setThread]
  · simp [runThread, KState.setThread, h]

theorem findNextToRun_threads (st : KState) (cur : Nat) :
    (findNextToRun st cur).2.threads = st.threads := by
  unfold findNextToRun
  split
  · split <;> rfl
  · split
    · split <;> rfl
    · split
      · rfl
      · split <;> rfl



/-- C5 (amended): the predicted burst time is updated to
`alpha·actual + (1−alpha)·burst` truncated (with `alpha = 0.5`,
`actual = userTicks − startTicks`) on **every** `Thread::Sleep`, and on
`Thread::Yield` exactly when `FindNextToRun` yields a thread other than
the caller (with an empty ready list `Yield` leaves the prediction
untouched — see the counterexample); starting from the initial
prediction 10, actual bursts of 20 then 40 predict 27. -/
theorem burst_update_spec :
    (∀ (st : KState) (cur : Nat) (userTicks : Int),
      ((sleepThread st cur userTicks).threads cur).burstTime =
        burstSmooth (userTicks - (st.threads cur).startTicks)
          ((st.threads cur).burstTime)) ∧
    (∀ (st : KState) (cur : Nat) (userTicks : Int) (n : Nat),
      (findNextToRun st cur).1 = some n → n ≠ cur →
      ((yield st cur userTicks).threads cur).burstTime =
        burstSmooth (userTicks - (st.threads cur).startTicks)
          ((st.threads cur).burstTime)) ∧
    ((sleepThread (runThread (sleepThread burstDemoState 0 20) 0 100)
        0 140).threads 0).burstTime = 27 := by
  refine ⟨?_, ?_, by decide⟩
  · intro st cur userTicks
    unfold sleepThread
    dsimp only
    set st1 := st.setThread cur
      { st.threads cur with
        burstTime := burstSmooth (userTicks - (st.threads cur).startTicks)
          ((st.threads cur).burstTime),
        status := ThreadStatus.BLOCKED } with hst1
    have hb1 : (st1.threads cur).burstTime =
        burstSmooth (userTicks - (st.threads cur).startTicks)
          ((st.threads cur).burstTime) := by
      rw [hst1]
      simp [KState.setThread]
    rcases hnext : (findNextToRun st1 cur).1 with _ | n
    · dsimp only
      rw [congrFun (findNextToRun_threads st1 cur) cur, hb1]
    · dsimp only
      rw [runThread_burst, congrFun (findNextToRun_threads st1 cur) cur, hb1]
  · intro st cur userTicks n hnext hne
    unfold yield
    dsimp only
    rw [hnext]
    dsimp only
    rw [if_pos hne]
    have hth1 : (findNextToRun st cur).2.threads cur = st.threads cur :=
      congrFun (findNextToRun_threads st cur) cur
    rw [runThread_burst]
    have hready : ∀ (s2 : KState),
        ((readyToRun s2 cur).threads cur).burstTime =
          (s2.threads cur).burstTime := by
      intro s2
      rw [readyToRun_threads_self]
    rw [hready]
    rw [hth1]
    simp [KState.setThread]

/-- Witness for C5: `Yield` from `burstDemoState2` (another thread is
ready) does update the prediction to `burstSmooth 20 10 = 15`. -/
theorem burst_update_spec_witness :
    ((yield burstDemoState2 0 20).threads 0).burstTime =
      burstSmooth (20 - (burstDemoState2.threads 0).startTicks)
        ((burstDemoState2.threads 0).burstTime) ∧
    ((sleepThread burstDemoState 0 20).threads 0).burstTime =
      burstSmooth (20 - (burstDemoState.threads 0).startTicks)
        ((burstDemoState.threads 0).burstTime) :=
  ⟨burst_update_spec.2.1 burstDemoState2 0 20 1 (by decide) (by decide),
   burst_update_spec.1 burstDemoState 0 20⟩



/-- C6: evaluating `FileHeader::Allocate` on a fresh free map at size
`MaxFileSize + 100` succeeds and chains exactly two headers — but
because `Allocate` stores the *unclamped* `fileSize` into the first
header's `numBytes`, the chain's `numBytes` sum to `MaxFileSize + 200`
and `FileLength()` reports `MaxFileSize + 200`, not the allocated
`MaxFileSize + 100`. -/
theorem fileHeaderChain_fileLength_mismatch :
    (allocate 8 freeMapDemo (MaxFileSize + 100)).isSome = true ∧
    (allocate 8 freeMapDemo (MaxFileSize + 100)).map
      (fun p => p.1.chainLength) = some 2 ∧
    (allocate 8 freeMapDemo (MaxFileSize + 100)).map
      (fun p => p.1.numBytes) = some (MaxFileSize + 100) ∧
    (allocate 8 freeMapDemo (MaxFileSize + 100)).map
      (fun p => (p.1.nextFileHeader.map FileHeader.numBytes)) =
      some (some 100) ∧
    (allocate 8 freeMapDemo (MaxFileSize + 100)).map
      (fun p => p.1.fileLength) = some (MaxFileSize + 200) ∧
    MaxFileSize + 200 ≠ MaxFileSize + 100 := by
  decide

/-- Lemma: `WriteBack` touches only the sectors of the header chain. -/
theorem writeBack_preserves : ∀ (hd : FileHeader) (sector s : Int) (d : Disk),
    s ∉ chainSectors hd sector → writeBack hd sector d s = d s
  | .mk nb ns ds nxt none, sector, s, d, hs => by
    have hss : s ≠ sector := by
      intro he
      exact hs (by simp [chainSectors, he])
    unfold writeBack
    split
    · simp [diskWrite, hss]
    · simp [diskWrite, hss]
  | .mk nb ns ds nxt (some nh), sector, s, d, hs => by
    have hss : s ≠ sector := by
      intro he
      exact hs (by simp [chainSectors, he])
    unfold writeBack
    split <;> rename_i hnxt
    · have hrest : s ∉ chainSectors nh nxt := by
        intro hm
        exact hs (by simp [chainSectors, hnxt, hm])
      dsimp only
      rw [writeBack_preserves nh nxt s _ hrest]
      simp [diskWrite, hss]
    · simp [diskWrite, hss]

/-- The sector image written for a header node. -/
theorem writeBack_head (hd : FileHeader) (sector : Int) (d : Disk)
    (hnd : (chainSectors hd sector).Nodup) :
    writeBack hd sector d sector =
      encodeHeader hd.numBytes hd.numSectors hd.dataSectors
        hd.nextFileHeaderSector := by
  rcases hd with ⟨nb, ns, ds, nxt, _ | nh⟩
  · unfold writeBack
    split <;> simp [diskWrite, FileHeader.numBytes, FileHeader.numSectors,
      FileHeader.dataSectors, FileHeader.nextFileHeaderSector]
  · unfold writeBack
    split <;> rename_i hnxt
    · have hsec : sector ∉ chainSectors nh nxt := by
        simp [chainSectors, hnxt] at hnd
        exact hnd.1
      dsimp only
      rw [writeBack_preserves nh nxt sector _ hsec]
      simp [diskWrite, FileHeader.numBytes, FileHeader.numSectors,
        FileHeader.dataSectors, FileHeader.nextFileHeaderSector]
    · simp [diskWrite, FileHeader.numBytes, FileHeader.numSectors,
        FileHeader.dataSectors, FileHeader.nextFileHeaderSector]

/-- Decoding the stored sector image recovers the stored fields. -/
theorem encodeHeader_fields (nb ns : Int) (ds : List Int) (nxt : Int)
    (h0 : 0 ≤ ns) (h1 : ns ≤ (NumDirect : Int)) (h2 : ds.length = NumDirect) :
    (encodeHeader nb ns ds nxt).getD 0 0 = nb ∧
    (encodeHeader nb ns ds nxt).getD 1 0 = ns ∧
    (encodeHeader nb ns ds nxt).getD 2 0 = nxt ∧
    ((encodeHeader nb ns ds nxt).drop 3).take ns.toNat = ds.take ns.toNat := by
  refine ⟨rfl, rfl, rfl, ?_⟩
  unfold encodeHeader
  have hdrop : (([nb, ns, nxt] ++ ds.take ns.toNat
      ++ List.replicate (SectorWords - 3 - ns.toNat) 0).drop 3) =
      ds.take ns.toNat ++ List.replicate (SectorWords - 3 - ns.toNat) 0 := by
    simp
  rw [hdrop]
  have hlen : (ds.take ns.toNat).length = ns.toNat := by
    rw [List.length_take, h2]
    have : ns.toNat ≤ NumDirect := by omega
    omega
  rw [List.take_append_of_le_length (by omega), List.take_take]
  simp



/-- C7: `FileHeader::WriteBack` followed by `FileHeader::FetchFrom` on a
fresh header reconstructs `numBytes`, `numSectors`,
`nextFileHeaderSector`, the first `numSectors` entries of `dataSectors`
(the rest are the zeros of a fresh header) and the entire chain of
successor headers, and the sector is laid out in the field order
`numBytes | numSectors | nextFileHeaderSector | dataSectors`
(`encodeHeader`).  Hypotheses: the header chain is well formed and its
sectors are pairwise distinct; the fetch fuel covers the chain length. -/
theorem writeBack_fetchFrom_roundtrip :
    ∀ (hd : FileHeader) (fuel : Nat) (sector : Int) (d : Disk),
    wfHeader hd = true → (chainSectors hd sector).Nodup →
    hd.chainLength ≤ fuel →
    fetchFrom fuel (writeBack hd sector d) sector =
      some (canonHeader hd) ∧
    writeBack hd sector d sector =
      encodeHeader hd.numBytes hd.numSectors hd.dataSectors
        hd.nextFileHeaderSector
  | .mk nb ns ds nxt none, fuel, sector, d, hwf, hnd, hfuel => by
    simp only [wfHeader, Bool.and_eq_true, decide_eq_true_eq] at hwf
    obtain ⟨⟨⟨h0, h1⟩, h2⟩, h3⟩ := hwf
    have hhead := writeBack_head (FileHeader.mk nb ns ds nxt none) sector d hnd
    refine ⟨?_, hhead⟩
    have hlen : (FileHeader.mk nb ns ds nxt none).chainLength = 1 := rfl
    rw [hlen] at hfuel
    obtain ⟨f, rfl⟩ : ∃ f, fuel = f + 1 := ⟨fuel - 1, by omega⟩
    rw [fetchFrom]
    simp only [FileHeader.numBytes, FileHeader.numSectors,
      FileHeader.dataSectors, FileHeader.nextFileHeaderSector] at hhead
    rw [hhead]
    obtain ⟨e0, e1, e2, e3⟩ := encodeHeader_fields nb ns ds nxt h0 h1 h2
    rw [e0, e1, e2, e3, h3]
    simp [canonHeader]
  | .mk nb ns ds nxt (some nh), fuel, sector, d, hwf, hnd, hfuel => by
    simp only [wfHeader, Bool.and_eq_true, decide_eq_true_eq] at hwf
    obtain ⟨⟨⟨⟨h0, h1⟩, h2⟩, h3⟩, hwfnh⟩ := hwf
    have hhead := writeBack_head (FileHeader.mk nb ns ds nxt (some nh))
      sector d hnd
    refine ⟨?_, hhead⟩
    simp only [chainSectors] at hnd
    rw [if_pos h3, List.nodup_cons] at hnd
    have hlen : (FileHeader.mk nb ns ds nxt (some nh)).chainLength =
        nh.chainLength + 1 := rfl
    rw [hlen] at hfuel
    obtain ⟨f, rfl⟩ : ∃ f, fuel = f + 1 := ⟨fuel - 1, by omega⟩
    have hwb : writeBack (FileHeader.mk nb ns ds nxt (some nh)) sector d =
        writeBack nh nxt (diskWrite d sector (encodeHeader nb ns ds nxt)) := by
      show (if nxt ≠ -1 then
          match some nh with
          | some nh2 =>
            writeBack nh2 nxt (diskWrite d sector (encodeHeader nb ns ds nxt))
          | none => diskWrite d sector (encodeHeader nb ns ds nxt)
        else diskWrite d sector (encodeHeader nb ns ds nxt)) =
        writeBack nh nxt (diskWrite d sector (encodeHeader nb ns ds nxt))
      rw [if_pos h3]
    have hih := writeBack_fetchFrom_roundtrip nh f nxt
      (diskWrite d sector (encodeHeader nb ns ds nxt)) hwfnh hnd.2 (by omega)
    rw [fetchFrom]
    simp only [FileHeader.numBytes, FileHeader.numSectors,
      FileHeader.dataSectors, FileHeader.nextFileHeaderSector] at hhead
    rw [hhead]
    obtain ⟨e0, e1, e2, e3⟩ := encodeHeader_fields nb ns ds nxt h0 h1 h2
    rw [e0, e1, e2, e3]
    rw [if_pos h3, hwb, hih.1]
    simp [canonHeader]

/-- Witness for C7: the round trip on a concrete two-header chain
written at sector 5 of an empty disk. -/
theorem writeBack_fetchFrom_roundtrip_witness :
    wfHeader chainDemoHeader = true ∧
    (chainSectors chainDemoHeader 5).Nodup ∧
    fetchFrom 2 (writeBack chainDemoHeader 5 emptyDisk) 5 =
      some (canonHeader chainDemoHeader) :=
  ⟨by decide, by decide,
   (writeBack_fetchFrom_roundtrip chainDemoHeader 2 5 emptyDisk
     (by decide) (by decide) (by decide)).1⟩



/-- Counterexample for C8: `Write` with a valid fd and `n = 0` — not
covered by the claim's "fd invalid or n < 0" failure condition — still
returns `-1` (via `ReadStringFromUserAddrSpace`'s `limit ≤ 0` check)
although zero bytes are written and the table is untouched, so the
syscall does not return "the number of bytes written" there. -/
theorem syscallWrite_n_zero_counterexample :
    getOpenFileEntry syscallDemoTable 0 =
      some { content := [1, 2, 3], pos := 0 } ∧
    ¬((0 : Int) < 0) ∧
    syscallWrite syscallDemoMem syscallDemoTable 100 0 0 =
      some (-1, syscallDemoTable) := by
  decide

/-- C8 (amended): the `SC_Read` arm returns `-1` when the fd has no open
file, when `n ≤ 0`, or when the file read yields no bytes (seek position
at or past end of file); otherwise, for a non-negative buffer address,
it returns the byte count copied to the user buffer,
`min n (length − pos)` — and for a negative buffer address it hits
`WriteCharsToUserAddrSpace`'s fatal assertion instead of returning.  The
`SC_Write` arm returns `-1` when the fd has no open file, when `n < 0`,
or when the user-string copy yields no bytes (`n = 0`, null address, or
leading NUL byte); a negative buffer address hits
`ReadStringFromUserAddrSpace`'s fatal assertion; otherwise it returns
the number of bytes written, the count of leading non-NUL user bytes
capped at `n`. -/
theorem syscall_rw_spec :
    (∀ (table : FileTable) (addr n fd : Int),
      getOpenFileEntry table fd = none →
      syscallRead table addr n fd = some (-1, table)) ∧
    (∀ (table : FileTable) (addr n fd : Int) (f : FileRec),
      getOpenFileEntry table fd = some f → n ≤ 0 →
      syscallRead table addr n fd = some (-1, table)) ∧
    (∀ (table : FileTable) (addr n fd : Int) (f : FileRec),
      getOpenFileEntry table fd = some f → 0 < n →
      f.content.length ≤ f.pos →
      (syscallRead table addr n fd).map Prod.fst = some (-1)) ∧
    (∀ (table : FileTable) (addr n fd : Int) (f : FileRec),
      getOpenFileEntry table fd = some f → 0 < n →
      f.pos < f.content.length → 0 ≤ addr →
      (syscallRead table addr n fd).map Prod.fst =
        some ((min n.toNat (f.content.length - f.pos) : Nat) : Int)) ∧
    (∀ (table : FileTable) (addr n fd : Int) (f : FileRec),
      getOpenFileEntry table fd = some f → 0 < n →
      f.pos < f.content.length → addr < 0 →
      syscallRead table addr n fd = none) ∧
    (∀ (mem : UserMem) (table : FileTable) (addr n fd : Int),
      getOpenFileEntry table fd = none →
      syscallWrite mem table addr n fd = some (-1, table)) ∧
    (∀ (mem : UserMem) (table : FileTable) (addr n fd : Int) (f : FileRec),
      getOpenFileEntry table fd = some f → n < 0 →
      syscallWrite mem table addr n fd = some (-1, table)) ∧
    (∀ (mem : UserMem) (table : FileTable) (addr n fd : Int) (f : FileRec),
      getOpenFileEntry table fd = some f → 0 ≤ n → addr < 0 →
      syscallWrite mem table addr n fd = none) ∧
    (∀ (mem : UserMem) (table : FileTable) (addr n fd : Int) (f : FileRec)
      (s : Int) (buf : List Int),
      getOpenFileEntry table fd = some f → 0 ≤ n →
      readStringFromUserAddrSpace mem addr n = some (s, buf) → s ≤ 0 →
      syscallWrite mem table addr n fd = some (-1, table)) ∧
    (∀ (mem : UserMem) (table : FileTable) (addr n fd : Int) (f : FileRec)
      (s : Int) (buf : List Int),
      getOpenFileEntry table fd = some f → 0 ≤ n →
      readStringFromUserAddrSpace mem addr n = some (s, buf) → 0 < s →
      (syscallWrite mem table addr n fd).map Prod.fst = some s) := by
  refine ⟨?_, ?_, ?_, ?_, ?_, ?_, ?_, ?_, ?_, ?_⟩
  · intro table addr n fd hget
    unfold syscallRead
    rw [hget]
  · intro table addr n fd f hget hn
    unfold syscallRead
    rw [hget]
    dsimp only
    rw [if_pos hn]
  · intro table addr n fd f hget hn hpos
    unfold syscallRead
    rw [hget]
    dsimp only
    rw [if_neg (by omega)]
    unfold openFileRead
    dsimp only
    have hempty : (((f.content.drop f.pos).take n.toNat).length : Int) ≤ 0 := by
      simp only [List.length_take, List.length_drop]
      omega
    rw [if_pos hempty]
    rfl
  · intro table addr n fd f hget hn hpos haddr
    unfold syscallRead
    rw [hget]
    dsimp only
    rw [if_neg (by omega)]
    unfold openFileRead
    dsimp only
    have hlen : ((f.content.drop f.pos).take n.toNat).length =
        min n.toNat (f.content.length - f.pos) := by
      simp [List.length_take, List.length_drop]
    have hlen0 : 0 < ((f.content.drop f.pos).take n.toNat).length := by
      rw [hlen]
      have hn0 : 0 < n.toNat := by omega
      omega
    rw [if_neg (by omega)]
    unfold writeCharsToUserAddrSpace
    rw [if_neg (by omega), if_neg (by omega)]
    dsimp only
    rw [hlen]
    rfl
  · intro table addr n fd f hget hn hpos haddr
    unfold syscallRead
    rw [hget]
    dsimp only
    rw [if_neg (by omega)]
    unfold openFileRead
    dsimp only
    have hlen0 : 0 < ((f.content.drop f.pos).take n.toNat).length := by
      simp only [List.length_take, List.length_drop]
      have hn0 : 0 < n.toNat := by omega
      omega
    rw [if_neg (by omega)]
    unfold writeCharsToUserAddrSpace
    rw [if_pos haddr]
  · intro mem table addr n fd hget
    unfold syscallWrite
    rw [hget]
  · intro mem table addr n fd f hget hn
    unfold syscallWrite
    rw [hget]
    dsimp only
    rw [if_pos hn]
  · intro mem table addr n fd f hget hn haddr
    unfold syscallWrite
    rw [hget]
    dsimp only
    rw [if_neg (by omega)]
    have hrs : readStringFromUserAddrSpace mem addr n = none := by
      unfold readStringFromUserAddrSpace
      rw [if_pos haddr]
    rw [hrs]
  · intro mem table addr n fd f s buf hget hn hrs hs
    unfold syscallWrite
    rw [hget]
    dsimp only
    rw [if_neg (by omega), hrs]
    dsimp only
    rw [if_pos hs]
  · intro mem table addr n fd f s buf hget hn hrs hs
    have hsl : s = (buf.length : Int) := by
      have haddr : ¬ addr < 0 := by
        intro hneg
        unfold readStringFromUserAddrSpace at hrs
        rw [if_pos hneg] at hrs
        exact Option.noConfusion hrs
      unfold readStringFromUserAddrSpace at hrs
      rw [if_neg haddr] at hrs
      dsimp only at hrs
      split at hrs
      · have := Option.some.inj hrs
        have hs1 : (-1 : Int) = s := congrArg Prod.fst this
        omega
      · have := Option.some.inj hrs
        have hs1 := congrArg Prod.fst this
        have hs2 := congrArg Prod.snd this
        dsimp at hs1 hs2
        rw [← hs1, hs2]
    unfold syscallWrite
    rw [hget]
    dsimp only
    rw [if_neg (by omega), hrs]
    dsimp only
    rw [if_neg (by omega)]
    unfold openFileWrite
    dsimp only
    rw [Option.map_some']
    rw [hsl]

/-- Witness for C8: on the concrete table (fd 0 open on a three-byte
file), `Read` of two bytes into a valid buffer returns 2; `Read` into a
negative buffer address aborts (`none`); `Write` of up to five bytes
from user memory holding two leading non-NUL bytes returns 2; `Read`
with `n = 0` returns `-1`. -/
theorem syscall_rw_spec_witness :
    (syscallRead syscallDemoTable 200 2 0).map Prod.fst =
      some ((min 2 3 : Nat) : Int) ∧
    syscallRead syscallDemoTable (-7) 2 0 = none ∧
    (syscallWrite syscallDemoMem syscallDemoTable 100 5 0).map Prod.fst =
      some 2 ∧
    syscallRead syscallDemoTable 200 0 0 = some (-1, syscallDemoTable) :=
  ⟨syscall_rw_spec.2.2.2.1 syscallDemoTable 200 2 0
      { content := [1, 2, 3], pos := 0 } (by decide) (by decide) (by decide)
      (by decide),
   syscall_rw_spec.2.2.2.2.1 syscallDemoTable (-7) 2 0
      { content := [1, 2, 3], pos := 0 } (by decide) (by decide) (by decide)
      (by decide),
   syscall_rw_spec.2.2.2.2.2.2.2.2.2 syscallDemoMem syscallDemoTable 100 5 0
      { content := [1, 2, 3], pos := 0 } 2 [65, 66] (by decide) (by decide)
      (by decide) (by decide),
   syscall_rw_spec.2.1 syscallDemoTable 200 0 0
      { content := [1, 2, 3], pos := 0 } (by decide) (by decide)⟩

/-- Witness for C1: `Release` on the concrete held lock of
`releaseDemoState` empties the waiter queue, readies waiter 1, and does
not yield (non-preemptive scheduler). -/
theorem lockRelease_spec_witness :
    ((release releaseDemoState 0).1.locks 0).waitQueue = [] ∧
    (1 ∈ (release releaseDemoState 0).1.sched.readyList ∧
      ((release releaseDemoState 0).1.threads 1).status = ThreadStatus.READY) ∧
    (release releaseDemoState 0).2 =
      (releaseDemoState.sched.isPreemptive &&
        (releaseDemoState.threads 0).isDonated) :=
  ⟨(lockRelease_spec releaseDemoState 0 0 rfl rfl).1,
   (lockRelease_spec releaseDemoState 0 0 rfl rfl).2.2.2.2.1 1 (by decide),
   (lockRelease_spec releaseDemoState 0 0 rfl rfl).2.2.2.2.2.2⟩

end NachOS
